import Mathlib

/-!
# graphlayouts: constrained stress majorization

A shallow embedding of `src/constrained_stress.cpp` and `src/constrained_stress3D.cpp`.

Modelling conventions.

* A `NumericMatrix` is read through `m(i, j)`; here it is a function of the row and the
  column index, and the number of rows `n = y.nrow()` is passed next to it.
* `double` is idealised as a linearly ordered field `R` with exact arithmetic; the library
  function `sqrt` is a parameter of every definition that calls it. Rounding, NaN and the
  infinities are outside the model, with one exception: the division by `stress_old` in the
  stopping test, whose zero case is reachable on ordinary inputs, is spelled out in
  `eps_le_tol`.
* `NA` entries of `fixedCoords` are `none`.
* A C loop `for (int i = lo; i < hi; ++i)` is `forLoop lo hi`, a left fold over
  `lo, lo + 1, ..., hi - 1` that threads the variables the body assigns.
-/

namespace Graphlayouts

/-- Dense matrix of numbers, indexed by row and column. -/
abbrev NumericMatrix (R : Type) := Nat → Nat → R

/-- The loop `for (int i = lo; i < hi; ++i) s = body i s`. -/
def forLoop {σ : Type} (lo hi : Nat) (body : Nat → σ → σ) (s : σ) : σ :=
  (List.range' lo (hi - lo)).foldl (fun acc i => body i acc) s

/-- The assignment `m(i, c) = v`. -/
def setEntry {R : Type} (m : NumericMatrix R) (i c : Nat) (v : R) : NumericMatrix R :=
  fun i' c' => if i' = i ∧ c' = c then v else m i' c'

/-- The column assignment `m(_, c) = y(_, c)` on a matrix with `n` rows. -/
def setColumn {R : Type} (n : Nat) (m y : NumericMatrix R) (c : Nat) : NumericMatrix R :=
  fun i c' => if i < n ∧ c' = c then y i c else m i c'

section Source

variable {R : Type} [LinearOrderedField R]

/-- The vector of row sums `rowSums(W)` of an `n x n` matrix. -/
def rowSums (n : Nat) (W : NumericMatrix R) : Nat → R :=
  fun i => forLoop 0 n (fun j s => s + W i j) 0

/-- The expression `sqrt(sum(pow(x(i, _) - x(j, _), 2)))` on a matrix with `ncol` columns. -/
def rowDist (sqrt : R → R) (ncol : Nat) (x : NumericMatrix R) (i j : Nat) : R :=
  sqrt (forLoop 0 ncol (fun c s => s + (x i c - x j c) ^ 2) 0)

/-- The test `eps <= tol` of the solvers, for `eps = (stress_old - stress_new) / stress_old`.
For `stress_old` other than zero it compares the quotient with `tol`. For `stress_old = 0` the
double division gives minus infinity when the numerator is negative, which is below every
`tol`, and plus infinity or NaN otherwise, neither of which compares `<= tol`. -/
def eps_le_tol (stress_old stress_new tol : R) : Bool :=
  if stress_old = 0 then decide (stress_old - stress_new < 0)
  else decide ((stress_old - stress_new) / stress_old ≤ tol)

/-! ## `constrained_stress.cpp` -/

/-- Source function `constrained_stress` (lines 5-16). -/
def constrained_stress (sqrt : R → R) (n : Nat) (x W D : NumericMatrix R) : R :=
  forLoop 0 (n - 1) (fun i fct =>
    forLoop (i + 1) n (fun j fct =>
      let denom := sqrt ((x i 0 - x j 0) * (x i 0 - x j 0) +
                         (x i 1 - x j 1) * (x i 1 - x j 1))
      fct + W i j * (denom - D i j) * (denom - D i j)) fct) 0

/-- One pass of the body of the `k` loop of `constrained_stress_major` up to the end of the
`i` loop (lines 30-48): the matrix `xnew` built from the current `x`. -/
def constrained_stress_major_xnew (sqrt : R → R) (n : Nat) (x y : NumericMatrix R) (dim : Nat)
    (W D : NumericMatrix R) (wsum : Nat → R) : NumericMatrix R :=
  let xnew : NumericMatrix R := fun _ _ => 0
  let xnew := setColumn n xnew y (dim - 1)
  forLoop 0 n (fun i xnew =>
    let xnew := forLoop 0 n (fun j xnew =>
      if i ≠ j then
        let denom := rowDist sqrt 2 x i j
        if denom > 1 / 100000 then
          let updateDim := 1 - (dim - 1)
          setEntry xnew i updateDim (xnew i updateDim +
            W i j * (x j updateDim + D i j * (x i updateDim - x j updateDim) / denom))
        else xnew
      else xnew) xnew
    let updateDim := 1 - (dim - 1)
    setEntry xnew i updateDim (xnew i updateDim / wsum i)) xnew

/-- The `k` loop of `constrained_stress_major` (lines 29-59) with `k` iterations left: the
value of `x` when the loop is left, by `break` or by running out of iterations. -/
def constrained_stress_major_loop (sqrt : R → R) (n : Nat) (y : NumericMatrix R) (dim : Nat)
    (W D : NumericMatrix R) (wsum : Nat → R) (tol : R) :
    Nat → NumericMatrix R → R → NumericMatrix R
  | 0, x, _ => x
  | k + 1, x, stress_old =>
    let xnew := constrained_stress_major_xnew sqrt n x y dim W D wsum
    let stress_new := constrained_stress sqrt n xnew W D
    if eps_le_tol stress_old stress_new tol then x
    else constrained_stress_major_loop sqrt n y dim W D wsum tol k xnew stress_new

/-- Source function `constrained_stress_major` (lines 19-61). -/
def constrained_stress_major (sqrt : R → R) (n : Nat) (y : NumericMatrix R) (dim : Nat)
    (W D : NumericMatrix R) (iter : Int) (tol : R) : NumericMatrix R :=
  let x := y
  let wsum := rowSums n W
  let stress_old := constrained_stress sqrt n x W D
  constrained_stress_major_loop sqrt n y dim W D wsum tol iter.toNat x stress_old

/-- Source function `replaceNA` (lines 63-75). -/
def replaceNA (nrow ncol : Nat) (x : NumericMatrix R) (y : NumericMatrix (Option R)) :
    NumericMatrix R :=
  forLoop 0 nrow (fun i x =>
    forLoop 0 ncol (fun j x =>
      match y i j with
      | some v => setEntry x i j v
      | none => x) x) x

/-- One pass of the body of the `k` loop of `fixed_stress_major` up to the end of the `i`
loop (lines 89-115). -/
def fixed_stress_major_xnew (sqrt : R → R) (n : Nat) (x : NumericMatrix R)
    (fixedCoords : NumericMatrix (Option R)) (W D : NumericMatrix R) (wsum : Nat → R) :
    NumericMatrix R :=
  let xnew : NumericMatrix R := fun _ _ => 0
  let xnew := replaceNA n 2 xnew fixedCoords
  forLoop 0 n (fun i xnew =>
    let xnew := forLoop 0 n (fun j xnew =>
      if i ≠ j then
        let denom := rowDist sqrt 2 x i j
        if denom > 1 / 100000 then
          let xnew :=
            if (fixedCoords i 0).isSome then
              setEntry xnew i 0 (xnew i 0 +
                W i j * (x j 0 + D i j * (x i 0 - x j 0) / denom))
            else xnew
          if (fixedCoords i 1).isSome then
            setEntry xnew i 1 (xnew i 1 +
              W i j * (x j 1 + D i j * (x i 1 - x j 1) / denom))
          else xnew
        else xnew
      else xnew) xnew
    let xnew :=
      if (fixedCoords i 0).isSome then setEntry xnew i 0 (xnew i 0 / wsum i) else xnew
    if (fixedCoords i 1).isSome then setEntry xnew i 1 (xnew i 1 / wsum i) else xnew) xnew

/-- The `k` loop of `fixed_stress_major` (lines 88-126) with `k` iterations left. -/
def fixed_stress_major_loop (sqrt : R → R) (n : Nat) (fixedCoords : NumericMatrix (Option R))
    (W D : NumericMatrix R) (wsum : Nat → R) (tol : R) :
    Nat → NumericMatrix R → R → NumericMatrix R
  | 0, x, _ => x
  | k + 1, x, stress_old =>
    let xnew := fixed_stress_major_xnew sqrt n x fixedCoords W D wsum
    let stress_new := constrained_stress sqrt n xnew W D
    if eps_le_tol stress_old stress_new tol then x
    else fixed_stress_major_loop sqrt n fixedCoords W D wsum tol k xnew stress_new

/-- Source function `fixed_stress_major` (lines 78-128). -/
def fixed_stress_major (sqrt : R → R) (n : Nat) (y : NumericMatrix R)
    (fixedCoords : NumericMatrix (Option R)) (W D : NumericMatrix R) (iter : Int) (tol : R) :
    NumericMatrix R :=
  let x := y
  let wsum := rowSums n W
  let stress_old := constrained_stress sqrt n x W D
  fixed_stress_major_loop sqrt n fixedCoords W D wsum tol iter.toNat x stress_old

/-! ## `constrained_stress3D.cpp` -/

/-- Source function `constrained_stress3D` (lines 5-17). -/
def constrained_stress3D (sqrt : R → R) (n : Nat) (x W D : NumericMatrix R) : R :=
  forLoop 0 (n - 1) (fun i fct =>
    forLoop (i + 1) n (fun j fct =>
      let denom := sqrt ((x i 0 - x j 0) * (x i 0 - x j 0) +
                         (x i 1 - x j 1) * (x i 1 - x j 1) +
                         (x i 2 - x j 2) * (x i 2 - x j 2))
      fct + W i j * (denom - D i j) * (denom - D i j)) fct) 0

/-- One pass of the body of the `k` loop of `constrained_stress_major3D` up to the end of the
`i` loop (lines 31-53). -/
def constrained_stress_major3D_xnew (sqrt : R → R) (n : Nat) (x y : NumericMatrix R)
    (dim : Nat) (W D : NumericMatrix R) (wsum : Nat → R) : NumericMatrix R :=
  let xnew : NumericMatrix R := fun _ _ => 0
  let xnew := setColumn n xnew y (dim - 1)
  forLoop 0 n (fun i xnew =>
    let xnew := forLoop 0 n (fun j xnew =>
      if i ≠ j then
        let denom := rowDist sqrt 3 x i j
        if denom > 1 / 100000 then
          forLoop 0 3 (fun d xnew =>
            if d ≠ dim - 1 then
              setEntry xnew i d (xnew i d +
                W i j * (x j d + D i j * (x i d - x j d) / denom))
            else xnew) xnew
        else xnew
      else xnew) xnew
    forLoop 0 3 (fun d xnew =>
      if d ≠ dim - 1 then setEntry xnew i d (xnew i d / wsum i) else xnew) xnew) xnew

/-- The `k` loop of `constrained_stress_major3D` (lines 30-64) with `k` iterations left. -/
def constrained_stress_major3D_loop (sqrt : R → R) (n : Nat) (y : NumericMatrix R) (dim : Nat)
    (W D : NumericMatrix R) (wsum : Nat → R) (tol : R) :
    Nat → NumericMatrix R → R → NumericMatrix R
  | 0, x, _ => x
  | k + 1, x, stress_old =>
    let xnew := constrained_stress_major3D_xnew sqrt n x y dim W D wsum
    let stress_new := constrained_stress3D sqrt n xnew W D
    if eps_le_tol stress_old stress_new tol then x
    else constrained_stress_major3D_loop sqrt n y dim W D wsum tol k xnew stress_new

/-- Source function `constrained_stress_major3D` (lines 20-66). -/
def constrained_stress_major3D (sqrt : R → R) (n : Nat) (y : NumericMatrix R) (dim : Nat)
    (W D : NumericMatrix R) (iter : Int) (tol : R) : NumericMatrix R :=
  let x := y
  let wsum := rowSums n W
  let stress_old := constrained_stress3D sqrt n x W D
  constrained_stress_major3D_loop sqrt n y dim W D wsum tol iter.toNat x stress_old

end Source

/-! ## Reference definitions, worded as the specification words them -/

section Reference

variable {R : Type} [LinearOrderedField R]

/-- Euclidean distance between rows `i` and `j` of `x` over all `d` axes. -/
def euclid (sqrt : R → R) (d : Nat) (x : NumericMatrix R) (i j : Nat) : R :=
  sqrt (∑ a in Finset.range d, (x i a - x j a) ^ 2)

/-- Stress of the specification: the sum over all pairs `i < j` of the `n` points of
`W(i,j) * (delta_ij - D(i,j))^2`. -/
def stressSpec (sqrt : R → R) (d n : Nat) (x W D : NumericMatrix R) : R :=
  ∑ i in Finset.range n, ∑ j in (Finset.range n).filter (fun j => i < j),
    W i j * (euclid sqrt d x i j - D i j) ^ 2

/-- Update of the specification for a free coordinate `a` of point `i`: the sum over the
points `j` other than `i` at distance above `1e-5` of
`W(i,j) * (x[j][a] + D(i,j) * (x[i][a] - x[j][a]) / dist(i,j))`, divided by the sum over `j`
of `W(i,j)`; `x` is the previous iterate. -/
def guttman (sqrt : R → R) (d n : Nat) (x W D : NumericMatrix R) (i a : Nat) : R :=
  (∑ j in (Finset.range n).filter (fun j => j ≠ i ∧ euclid sqrt d x i j > 1 / 100000),
      W i j * (x j a + D i j * (x i a - x j a) / euclid sqrt d x i j)) /
    (∑ j in Finset.range n, W i j)

/-- The configuration `x` with the vector `t` added to every row. -/
def translate (x : NumericMatrix R) (t : Nat → R) : NumericMatrix R :=
  fun i c => x i c + t c

end Reference

/-! ## Closed forms used in the proofs -/

section Devices

variable {R : Type} [LinearOrderedField R]

/-- Contribution of point `j` to the accumulator of coordinate `a` of point `i`. -/
def contribution (sqrt : R → R) (d : Nat) (x W D : NumericMatrix R) (i a j : Nat) : R :=
  if i ≠ j ∧ rowDist sqrt d x i j > 1 / 100000 then
    W i j * (x j a + D i j * (x i a - x j a) / rowDist sqrt d x i j)
  else 0

/-- The matrix one pass of the `i` and `j` loops leaves: an entry `(i, c)` that the pass
updates holds its initial value plus all contributions, divided by `wsum[i]`; every other
entry keeps its initial value. -/
def updateBy (sqrt : R → R) (d n : Nat) (free : Nat → Nat → Bool) (init x W D : NumericMatrix R)
    (wsum : Nat → R) : NumericMatrix R :=
  fun i c =>
    if i < n ∧ free i c = true then
      (init i c + ∑ j in Finset.range n, contribution sqrt d x W D i c j) / wsum i
    else init i c

/-- The shape the three `k` loops share: `step` builds `xnew`, `stress` evaluates it. -/
def majorLoop (step : NumericMatrix R → NumericMatrix R) (stress : NumericMatrix R → R)
    (tol : R) : Nat → NumericMatrix R → R → NumericMatrix R
  | 0, x, _ => x
  | k + 1, x, stress_old =>
    if eps_le_tol stress_old (stress (step x)) tol then x
    else majorLoop step stress tol k (step x) (stress (step x))

/-- The configuration after `k` passes of `constrained_stress_major` on `y`, each pass
accepted. -/
def constrained_stress_major_iterate (sqrt : R → R) (n : Nat) (y : NumericMatrix R) (dim : Nat)
    (W D : NumericMatrix R) (k : Nat) : NumericMatrix R :=
  (fun x => constrained_stress_major_xnew sqrt n x y dim W D (rowSums n W))^[k] y

/-- The configuration after `k` passes of `fixed_stress_major` on `y`, each pass accepted. -/
def fixed_stress_major_iterate (sqrt : R → R) (n : Nat) (y : NumericMatrix R)
    (fixedCoords : NumericMatrix (Option R)) (W D : NumericMatrix R) (k : Nat) :
    NumericMatrix R :=
  (fun x => fixed_stress_major_xnew sqrt n x fixedCoords W D (rowSums n W))^[k] y

/-- The configuration after `k` passes of `constrained_stress_major3D` on `y`, each pass
accepted. -/
def constrained_stress_major3D_iterate (sqrt : R → R) (n : Nat) (y : NumericMatrix R)
    (dim : Nat) (W D : NumericMatrix R) (k : Nat) : NumericMatrix R :=
  (fun x => constrained_stress_major3D_xnew sqrt n x y dim W D (rowSums n W))^[k] y

/-- The pass of `constrained_stress_major` (lines 30-48) with the division by `denom`
replaced by the function `dv`; `constrained_stress_major_xnew` is the case of the field
division. -/
def constrained_stress_major_xnew_div (dv : R → R → R) (sqrt : R → R) (n : Nat)
    (x y : NumericMatrix R) (dim : Nat) (W D : NumericMatrix R) (wsum : Nat → R) :
    NumericMatrix R :=
  let xnew : NumericMatrix R := fun _ _ => 0
  let xnew := setColumn n xnew y (dim - 1)
  forLoop 0 n (fun i xnew =>
    let xnew := forLoop 0 n (fun j xnew =>
      if i ≠ j then
        let denom := rowDist sqrt 2 x i j
        if denom > 1 / 100000 then
          let updateDim := 1 - (dim - 1)
          setEntry xnew i updateDim (xnew i updateDim +
            W i j * (x j updateDim + dv (D i j * (x i updateDim - x j updateDim)) denom))
        else xnew
      else xnew) xnew
    let updateDim := 1 - (dim - 1)
    setEntry xnew i updateDim (xnew i updateDim / wsum i)) xnew

/-- The pass of `fixed_stress_major` (lines 89-115) with the division by `denom` replaced by
the function `dv`. -/
def fixed_stress_major_xnew_div (dv : R → R → R) (sqrt : R → R) (n : Nat)
    (x : NumericMatrix R) (fixedCoords : NumericMatrix (Option R)) (W D : NumericMatrix R)
    (wsum : Nat → R) : NumericMatrix R :=
  let xnew : NumericMatrix R := fun _ _ => 0
  let xnew := replaceNA n 2 xnew fixedCoords
  forLoop 0 n (fun i xnew =>
    let xnew := forLoop 0 n (fun j xnew =>
      if i ≠ j then
        let denom := rowDist sqrt 2 x i j
        if denom > 1 / 100000 then
          let xnew :=
            if (fixedCoords i 0).isSome then
              setEntry xnew i 0 (xnew i 0 +
                W i j * (x j 0 + dv (D i j * (x i 0 - x j 0)) denom))
            else xnew
          if (fixedCoords i 1).isSome then
            setEntry xnew i 1 (xnew i 1 +
              W i j * (x j 1 + dv (D i j * (x i 1 - x j 1)) denom))
          else xnew
        else xnew
      else xnew) xnew
    let xnew :=
      if (fixedCoords i 0).isSome then setEntry xnew i 0 (xnew i 0 / wsum i) else xnew
    if (fixedCoords i 1).isSome then setEntry xnew i 1 (xnew i 1 / wsum i) else xnew) xnew

/-- The pass of `constrained_stress_major3D` (lines 31-53) with the division by `denom`
replaced by the function `dv`. -/
def constrained_stress_major3D_xnew_div (dv : R → R → R) (sqrt : R → R) (n : Nat)
    (x y : NumericMatrix R) (dim : Nat) (W D : NumericMatrix R) (wsum : Nat → R) :
    NumericMatrix R :=
  let xnew : NumericMatrix R := fun _ _ => 0
  let xnew := setColumn n xnew y (dim - 1)
  forLoop 0 n (fun i xnew =>
    let xnew := forLoop 0 n (fun j xnew =>
      if i ≠ j then
        let denom := rowDist sqrt 3 x i j
        if denom > 1 / 100000 then
          forLoop 0 3 (fun d xnew =>
            if d ≠ dim - 1 then
              setEntry xnew i d (xnew i d +
                W i j * (x j d + dv (D i j * (x i d - x j d)) denom))
            else xnew) xnew
        else xnew
      else xnew) xnew
    forLoop 0 3 (fun d xnew =>
      if d ≠ dim - 1 then setEntry xnew i d (xnew i d / wsum i) else xnew) xnew) xnew

end Devices

/-! ## Concrete inputs -/

/-- Integer square root by search. -/
def isqrt (n : Nat) : Nat := ((List.range (n + 1)).filter (fun k => k * k ≤ n)).length - 1

/-- Square root on the rationals, exact on squares of rationals. -/
def sqrtQ (q : ℚ) : ℚ := (isqrt q.num.toNat : ℚ) / (isqrt q.den : ℚ)

/-- Two points, `(0, 0)` and `(6, 8)`, at distance 10. -/
def y0 : NumericMatrix ℚ := fun i c =>
  match i, c with
  | 1, 0 => 6
  | 1, 1 => 8
  | _, _ => 0

/-- Weight 1 off the diagonal, 0 on it. -/
def W0 : NumericMatrix ℚ := fun i j => if i = j then 0 else 1

/-- Target distance 5 off the diagonal. -/
def D0 : NumericMatrix ℚ := fun i j => if i = j then 0 else 5

/-- Target distance 1 off the diagonal. -/
def D1 : NumericMatrix ℚ := fun i j => if i = j then 0 else 1

/-- Fixed-coordinate matrix with every entry `NA`. -/
def FNA : NumericMatrix (Option ℚ) := fun _ _ => none

/-- Fixed-coordinate matrix that fixes entry `(0, 0)` to 7 and leaves the rest `NA`. -/
def F1 : NumericMatrix (Option ℚ) := fun i c => if i = 0 ∧ c = 0 then some 7 else none

/-- Fixed-coordinate matrix that fixes entry `(1, 0)` to 6 and leaves the rest `NA`. -/
def F6 : NumericMatrix (Option ℚ) := fun i c => if i = 1 ∧ c = 0 then some 6 else none

/-- Weight 1 in every entry, the diagonal included. -/
def W1 : NumericMatrix ℚ := fun _ _ => 1

/-- Target distance 10 off the diagonal, the distance of the two points of `y0`. -/
def D10 : NumericMatrix ℚ := fun i j => if i = j then 0 else 10

/-- Target distance 12 off the diagonal. -/
def D12 : NumericMatrix ℚ := fun i j => if i = j then 0 else 12

/-- Two points on the first axis, `(0, 0)` and `(10, 0)`. -/
def yline : NumericMatrix ℚ := fun i c =>
  match i, c with
  | 1, 0 => 10
  | _, _ => 0

/-- One point, `(5, 7)`. -/
def y57 : NumericMatrix ℚ := fun i c =>
  match i, c with
  | 0, 0 => 5
  | 0, 1 => 7
  | _, _ => 0

/-! ## Loops -/

section Loops

variable {σ : Type}

theorem forLoop_empty (lo hi : Nat) (h : hi ≤ lo) (body : Nat → σ → σ) (s : σ) :
    forLoop lo hi body s = s := by
  unfold forLoop
  rw [Nat.sub_eq_zero_of_le h]
  rfl

theorem forLoop_succ (lo hi : Nat) (h : lo ≤ hi) (body : Nat → σ → σ) (s : σ) :
    forLoop lo (hi + 1) body s = body hi (forLoop lo hi body s) := by
  unfold forLoop
  have e : hi + 1 - lo = (hi - lo) + 1 := by omega
  rw [e, List.range'_concat, List.foldl_append]
  simp only [List.foldl_cons, List.foldl_nil, Nat.one_mul]
  congr 1
  omega

/-- Invariant rule for `forLoop`. -/
theorem forLoop_inv (P : Nat → σ → Prop) (lo hi : Nat) (h : lo ≤ hi) (body : Nat → σ → σ)
    (s : σ) (h0 : P lo s)
    (hstep : ∀ i t, lo ≤ i → i < hi → P i t → P (i + 1) (body i t)) :
    P hi (forLoop lo hi body s) := by
  induction hi with
  | zero =>
    have : lo = 0 := by omega
    subst this
    rw [forLoop_empty 0 0 (le_refl _)]
    exact h0
  | succ m ih =>
    rcases Nat.eq_or_lt_of_le h with e | hlt
    · subst e
      rw [forLoop_empty _ _ (le_refl _)]
      exact h0
    · have hm : lo ≤ m := by omega
      rw [forLoop_succ lo m hm]
      exact hstep m _ hm (by omega)
        (ih hm (fun i t h1 h2 hp => hstep i t h1 (by omega) hp))

theorem forLoop_sum {R : Type} [AddCommMonoid R] (lo hi : Nat) (f : Nat → R) (s : R) :
    forLoop lo hi (fun i acc => acc + f i) s = s + ∑ i in Finset.Ico lo hi, f i := by
  rcases Nat.lt_or_ge hi lo with hlt | hge
  · rw [forLoop_empty _ _ (by omega), Finset.Ico_eq_empty (by omega)]
    simp
  · induction hi with
    | zero =>
      have : lo = 0 := by omega
      subst this
      rw [forLoop_empty 0 0 (le_refl _)]
      simp
    | succ m ih =>
      rcases Nat.eq_or_lt_of_le hge with e | hlt
      · subst e
        rw [forLoop_empty _ _ (le_refl _)]
        simp
      · have hm : lo ≤ m := by omega
        rw [forLoop_succ lo m hm, ih hm, Finset.sum_Ico_succ_top hm, add_assoc]

end Loops

/-! ## Stress -/

section Stress

variable {R : Type} [LinearOrderedField R]

theorem euclid_two (sqrt : R → R) (x : NumericMatrix R) (i j : Nat) :
    euclid sqrt 2 x i j =
      sqrt ((x i 0 - x j 0) * (x i 0 - x j 0) + (x i 1 - x j 1) * (x i 1 - x j 1)) := by
  unfold euclid
  congr 1
  simp [Finset.sum_range_succ]
  ring

theorem euclid_three (sqrt : R → R) (x : NumericMatrix R) (i j : Nat) :
    euclid sqrt 3 x i j =
      sqrt ((x i 0 - x j 0) * (x i 0 - x j 0) + (x i 1 - x j 1) * (x i 1 - x j 1) +
        (x i 2 - x j 2) * (x i 2 - x j 2)) := by
  unfold euclid
  congr 1
  simp [Finset.sum_range_succ]
  ring

theorem rowDist_eq_euclid (sqrt : R → R) (d : Nat) (x : NumericMatrix R) (i j : Nat) :
    rowDist sqrt d x i j = euclid sqrt d x i j := by
  unfold rowDist euclid
  rw [forLoop_sum, zero_add, Finset.range_eq_Ico]

/-- The pairs `i < j` below `n`, as the two loops of the stress functions enumerate them. -/
theorem sum_pairs_loops (n : Nat) (t : Nat → Nat → R) :
    forLoop 0 (n - 1) (fun i fct => forLoop (i + 1) n (fun j fct => fct + t i j) fct) 0 =
      ∑ i in Finset.range n, ∑ j in (Finset.range n).filter (fun j => i < j), t i j := by
  have inner : ∀ i, (Finset.range n).filter (fun j => i < j) = Finset.Ico (i + 1) n := by
    intro i
    ext j
    simp only [Finset.mem_filter, Finset.mem_range, Finset.mem_Ico]
    omega
  have body : (fun i fct => forLoop (i + 1) n (fun j fct => fct + t i j) fct) =
      (fun i (fct : R) => fct + ∑ j in Finset.Ico (i + 1) n, t i j) := by
    funext i fct
    rw [forLoop_sum]
  rw [body, forLoop_sum, zero_add]
  simp only [inner]
  rcases Nat.eq_zero_or_pos n with h0 | hpos
  · subst h0
    simp
  · have e : n = (n - 1) + 1 := by omega
    rw [← Finset.range_eq_Ico]
    conv_rhs => rw [e, Finset.sum_range_succ]
    have : Finset.Ico (n - 1 + 1) (n - 1 + 1) = (∅ : Finset Nat) := Finset.Ico_self _
    rw [this, Finset.sum_empty, add_zero]
    refine Finset.sum_congr rfl (fun i _ => ?_)
    rw [← e]

theorem constrained_stress_eq_spec (sqrt : R → R) (n : Nat) (x W D : NumericMatrix R) :
    constrained_stress sqrt n x W D = stressSpec sqrt 2 n x W D := by
  unfold constrained_stress stressSpec
  simp only [euclid_two]
  rw [← sum_pairs_loops]
  simp only [pow_two, mul_assoc]

theorem constrained_stress3D_eq_spec (sqrt : R → R) (n : Nat) (x W D : NumericMatrix R) :
    constrained_stress3D sqrt n x W D = stressSpec sqrt 3 n x W D := by
  unfold constrained_stress3D stressSpec
  simp only [euclid_three]
  rw [← sum_pairs_loops]
  simp only [pow_two, mul_assoc]

theorem stressSpec_nonneg (sqrt : R → R) (d n : Nat) (x W D : NumericMatrix R)
    (hW : ∀ i j, i < n → j < n → 0 ≤ W i j) : 0 ≤ stressSpec sqrt d n x W D := by
  unfold stressSpec
  exact Finset.sum_nonneg (fun i hi => Finset.sum_nonneg (fun j hj =>
    mul_nonneg (hW i j (Finset.mem_range.mp hi)
      (Finset.mem_range.mp (Finset.mem_filter.mp hj).1)) (sq_nonneg _)))

theorem stressSpec_eq_zero_iff (sqrt : R → R) (d n : Nat) (x W D : NumericMatrix R)
    (hW : ∀ i j, i < n → j < n → 0 ≤ W i j) :
    stressSpec sqrt d n x W D = 0 ↔
      ∀ i j, i < j → j < n → 0 < W i j → euclid sqrt d x i j = D i j := by
  have hterm : ∀ i, i ∈ Finset.range n → ∀ j, j ∈ (Finset.range n).filter (fun j => i < j) →
      0 ≤ W i j * (euclid sqrt d x i j - D i j) ^ 2 := fun i hi j hj =>
    mul_nonneg (hW i j (Finset.mem_range.mp hi)
      (Finset.mem_range.mp (Finset.mem_filter.mp hj).1)) (sq_nonneg _)
  unfold stressSpec
  rw [Finset.sum_eq_zero_iff_of_nonneg (fun i hi => Finset.sum_nonneg (hterm i hi))]
  constructor
  · intro h i j hij hj hw
    have hi : i ∈ Finset.range n := Finset.mem_range.mpr (by omega)
    have h1 := h i hi
    rw [Finset.sum_eq_zero_iff_of_nonneg (hterm i hi)] at h1
    have h2 := h1 j (Finset.mem_filter.mpr ⟨Finset.mem_range.mpr hj, hij⟩)
    rcases mul_eq_zero.mp h2 with h3 | h3
    · exact absurd h3 (ne_of_gt hw)
    · exact sub_eq_zero.mp (pow_eq_zero_iff (two_ne_zero) |>.mp h3)
  · intro h i hi
    refine Finset.sum_eq_zero (fun j hj => ?_)
    have hj2 := Finset.mem_filter.mp hj
    rcases eq_or_lt_of_le (hW i j (Finset.mem_range.mp hi) (Finset.mem_range.mp hj2.1))
      with h0 | hpos
    · rw [← h0, zero_mul]
    · rw [h i j hj2.2 (Finset.mem_range.mp hj2.1) hpos, sub_self]
      simp

end Stress

/-! ## Row-wise loops over a matrix -/

section Rows

variable {R : Type}

/-- A `j` loop whose body adds `g j c` to every entry `(i, c)` of row `i` adds the sums. -/
theorem forLoop_rowAdd [AddCommMonoid R] (n i : Nat) (g : Nat → Nat → R)
    (m0 : NumericMatrix R) :
    forLoop 0 n (fun j (m : NumericMatrix R) =>
        fun i' c' => if i' = i then m i c' + g j c' else m i' c') m0 =
      fun i' c' => if i' = i then m0 i c' + ∑ j in Finset.range n, g j c' else m0 i' c' := by
  refine forLoop_inv (fun k (m : NumericMatrix R) => m =
      fun i' c' => if i' = i then m0 i c' + ∑ j in Finset.range k, g j c' else m0 i' c')
    0 n (Nat.zero_le _) _ m0 ?_ ?_
  · funext i' c'
    by_cases h : i' = i <;> simp [h]
  · intro k m _ _ hm
    subst hm
    funext i' c'
    by_cases h : i' = i
    · simp [h, Finset.sum_range_succ, add_assoc]
    · simp [h]

/-- An `i` loop whose body rewrites row `i` entry by entry from its own old value rewrites
the first `n` rows. -/
theorem forLoop_rowMap (n : Nat) (v : Nat → Nat → R → R) (m0 : NumericMatrix R) :
    forLoop 0 n (fun i (m : NumericMatrix R) =>
        fun i' c' => if i' = i then v i c' (m i c') else m i' c') m0 =
      fun i' c' => if i' < n then v i' c' (m0 i' c') else m0 i' c' := by
  refine forLoop_inv (fun k (m : NumericMatrix R) => m =
      fun i' c' => if i' < k then v i' c' (m0 i' c') else m0 i' c')
    0 n (Nat.zero_le _) _ m0 ?_ ?_
  · funext i' c'
    simp
  · intro k m _ _ hm
    subst hm
    funext i' c'
    by_cases h : i' = k
    · subst h
      simp
    · by_cases h2 : i' < k
      · have : i' < k + 1 := by omega
        simp [h, h2, this]
      · have : ¬ i' < k + 1 := by omega
        simp [h, h2, this]

/-- A loop over the columns `d < ncol` whose body rewrites entry `(i, d)` from its own old
value rewrites the first `ncol` entries of row `i`. -/
theorem forLoop_colMap (ncol i : Nat) (v : Nat → R → R) (m0 : NumericMatrix R) :
    forLoop 0 ncol (fun d (m : NumericMatrix R) =>
        fun i' c' => if i' = i ∧ c' = d then v d (m i d) else m i' c') m0 =
      fun i' c' => if i' = i ∧ c' < ncol then v c' (m0 i c') else m0 i' c' := by
  refine forLoop_inv (fun k (m : NumericMatrix R) => m =
      fun i' c' => if i' = i ∧ c' < k then v c' (m0 i c') else m0 i' c')
    0 ncol (Nat.zero_le _) _ m0 ?_ ?_
  · funext i' c'
    simp
  · intro k m _ _ hm
    subst hm
    funext i' c'
    by_cases h : i' = i
    · subst h
      by_cases h1 : c' = k
      · subst h1
        simp
      · by_cases h2 : c' < k
        · have : c' < k + 1 := by omega
          simp [h1, h2, this]
        · have : ¬ c' < k + 1 := by omega
          simp [h1, h2, this]
    · simp [h]

end Rows

/-! ## The update step -/

section Update

variable {R : Type} [LinearOrderedField R]

/-- The two loops in canonical form compute `updateBy`. -/
theorem update_loops (sqrt : R → R) (d n : Nat) (free : Nat → Nat → Bool)
    (init x W D : NumericMatrix R) (wsum : Nat → R) :
    forLoop 0 n (fun i (m : NumericMatrix R) => fun i' c' =>
        if i' = i then
          (if free i c' = true then
            (m i c' + ∑ j in Finset.range n,
              (if free i c' = true then contribution sqrt d x W D i c' j else 0)) / wsum i
          else m i c')
        else m i' c') init =
      updateBy sqrt d n free init x W D wsum := by
  rw [forLoop_rowMap n (fun i c (r : R) => if free i c = true then
    (r + ∑ j in Finset.range n,
      (if free i c = true then contribution sqrt d x W D i c j else 0)) / wsum i else r)]
  funext i c
  unfold updateBy
  by_cases h3 : i < n <;> by_cases h4 : free i c = true <;> simp [h3, h4]

/-- The body of an `i` loop: a `j` loop that adds the contributions to the free entries of
row `i`, then the division of those entries by `wsum[i]`. -/
theorem update_body (sqrt : R → R) (d n : Nat) (free : Nat → Nat → Bool)
    (x W D : NumericMatrix R) (wsum : Nat → R) (i : Nat) (m : NumericMatrix R)
    (post : NumericMatrix R → NumericMatrix R)
    (hpost : ∀ m', post m' = fun i' c' =>
      if i' = i ∧ free i c' = true then m' i c' / wsum i else m' i' c') :
    post (forLoop 0 n (fun j (m : NumericMatrix R) => fun i' c' =>
        if i' = i then m i c' + (if free i c' = true then contribution sqrt d x W D i c' j else 0)
        else m i' c') m) =
      fun i' c' =>
        if i' = i then
          (if free i c' = true then
            (m i c' + ∑ j in Finset.range n,
              (if free i c' = true then contribution sqrt d x W D i c' j else 0)) / wsum i
          else m i c')
        else m i' c' := by
  rw [hpost, forLoop_rowAdd]
  funext i' c'
  by_cases h3 : i' = i <;> by_cases h4 : free i c' = true <;> simp [h3, h4]

theorem constrained_stress_major_xnew_eq (sqrt : R → R) (n : Nat) (x y : NumericMatrix R)
    (dim : Nat) (W D : NumericMatrix R) (wsum : Nat → R) :
    constrained_stress_major_xnew sqrt n x y dim W D wsum =
      updateBy sqrt 2 n (fun _ c => decide (c = 1 - (dim - 1)))
        (setColumn n (fun _ _ => 0) y (dim - 1)) x W D wsum := by
  unfold constrained_stress_major_xnew
  rw [← update_loops]
  refine congrArg (fun b => forLoop 0 n b (setColumn n (fun _ _ => 0) y (dim - 1))) ?_
  funext i m
  have inner : (fun j (xnew : NumericMatrix R) =>
      if i ≠ j then
        let denom := rowDist sqrt 2 x i j
        if denom > 1 / 100000 then
          let updateDim := 1 - (dim - 1)
          setEntry xnew i updateDim (xnew i updateDim +
            W i j * (x j updateDim + D i j * (x i updateDim - x j updateDim) / denom))
        else xnew
      else xnew) =
      (fun j (m : NumericMatrix R) => fun i' c' =>
        if i' = i then m i c' +
          (if (fun _ c => decide (c = 1 - (dim - 1))) i c' = true then
            contribution sqrt 2 x W D i c' j else 0)
        else m i' c') := by
    funext j m i' c'
    unfold contribution setEntry
    by_cases h1 : i = j
    · subst h1
      by_cases h3 : i' = i
      · subst h3
        simp
      · simp [h3]
    · simp only [ne_eq, h1, not_false_eq_true, if_true, true_and]
      split_ifs <;> simp_all
  simp only [inner]
  have hpost : ∀ m' : NumericMatrix R,
      (fun m' : NumericMatrix R => setEntry m' i (1 - (dim - 1)) (m' i (1 - (dim - 1)) / wsum i)) m'
        = fun i' c' => if i' = i ∧ (fun _ c => decide (c = 1 - (dim - 1))) i c' = true
            then m' i c' / wsum i else m' i' c' := by
    intro m'
    funext i' c'
    unfold setEntry
    by_cases h3 : i' = i <;> by_cases h4 : c' = 1 - (dim - 1) <;> simp [h3, h4]
  exact update_body sqrt 2 n (fun _ c => decide (c = 1 - (dim - 1))) x W D wsum i m _ hpost

theorem replaceNA_eq {R : Type} (nrow ncol : Nat) (x : NumericMatrix R) (F : NumericMatrix (Option R)) :
    replaceNA nrow ncol x F =
      fun i j => if i < nrow ∧ j < ncol then (F i j).getD (x i j) else x i j := by
  unfold replaceNA
  have inner : ∀ i, (fun j (x : NumericMatrix R) =>
      match F i j with
      | some v => setEntry x i j v
      | none => x) =
      (fun d (m : NumericMatrix R) => fun i' c' =>
        if i' = i ∧ c' = d then (F i d).getD (m i d) else m i' c') := by
    intro i
    funext j m i' c'
    unfold setEntry
    cases hF : F i j with
    | none =>
      by_cases h : i' = i ∧ c' = j
      · obtain ⟨h1, h2⟩ := h
        subst h1 h2
        simp
      · simp [h]
    | some v => simp
  have outer : (fun i (x : NumericMatrix R) =>
      forLoop 0 ncol (fun j (x : NumericMatrix R) =>
        match F i j with
        | some v => setEntry x i j v
        | none => x) x) =
      (fun i (m : NumericMatrix R) => fun i' c' =>
        if i' = i then (if c' < ncol then (F i c').getD (m i c') else m i c') else m i' c') := by
    funext i m
    rw [inner, forLoop_colMap ncol i (fun d r => (F i d).getD r)]
    funext i' c'
    by_cases h3 : i' = i <;> by_cases h4 : c' < ncol <;> simp [h3, h4]
  rw [outer, forLoop_rowMap nrow (fun i c r => if c < ncol then (F i c).getD r else r)]
  funext i c
  by_cases h3 : i < nrow <;> by_cases h4 : c < ncol <;> simp [h3, h4]

theorem fixed_stress_major_xnew_eq (sqrt : R → R) (n : Nat) (x : NumericMatrix R)
    (F : NumericMatrix (Option R)) (W D : NumericMatrix R) (wsum : Nat → R) :
    fixed_stress_major_xnew sqrt n x F W D wsum =
      updateBy sqrt 2 n (fun i c => decide (c < 2) && (F i c).isSome)
        (replaceNA n 2 (fun _ _ => 0) F) x W D wsum := by
  unfold fixed_stress_major_xnew
  rw [← update_loops]
  refine congrArg (fun b => forLoop 0 n b (replaceNA n 2 (fun _ _ => 0) F)) ?_
  funext i m
  have inner : (fun j (xnew : NumericMatrix R) =>
      if i ≠ j then
        let denom := rowDist sqrt 2 x i j
        if denom > 1 / 100000 then
          let xnew :=
            if (F i 0).isSome then
              setEntry xnew i 0 (xnew i 0 +
                W i j * (x j 0 + D i j * (x i 0 - x j 0) / denom))
            else xnew
          if (F i 1).isSome then
            setEntry xnew i 1 (xnew i 1 +
              W i j * (x j 1 + D i j * (x i 1 - x j 1) / denom))
          else xnew
        else xnew
      else xnew) =
      (fun j (m : NumericMatrix R) => fun i' c' =>
        if i' = i then m i c' +
          (if (fun i c => decide (c < 2) && (F i c).isSome) i c' = true then
            contribution sqrt 2 x W D i c' j else 0)
        else m i' c') := by
    funext j m i' c'
    unfold contribution setEntry
    by_cases h1 : i = j
    · subst h1
      by_cases h3 : i' = i
      · subst h3
        simp
      · simp [h3]
    · simp only [ne_eq, h1, not_false_eq_true, if_true, true_and]
      by_cases h2 : rowDist sqrt 2 x i j > 1 / 100000
      · simp only [h2, if_true]
        by_cases h3 : i' = i
        · subst h3
          match c' with
          | 0 => cases h0 : (F i' 0).isSome <;> cases h1 : (F i' 1).isSome <;> simp [h0, h1]
          | 1 => cases h0 : (F i' 0).isSome <;> cases h1 : (F i' 1).isSome <;> simp [h0, h1]
          | c + 2 => cases h0 : (F i' 0).isSome <;> cases h1 : (F i' 1).isSome <;> simp [h0, h1]
        · cases h0 : (F i 0).isSome <;> cases h1 : (F i 1).isSome <;> simp [h0, h1, h3]
      · simp only [h2, if_false]
        by_cases h3 : i' = i
        · subst h3
          simp
        · simp [h3]
  simp only [inner]
  have hpost : ∀ m' : NumericMatrix R,
      (fun m' : NumericMatrix R =>
        let xnew :=
          if (F i 0).isSome then setEntry m' i 0 (m' i 0 / wsum i) else m'
        if (F i 1).isSome then setEntry xnew i 1 (xnew i 1 / wsum i) else xnew) m'
        = fun i' c' => if i' = i ∧ (fun i c => decide (c < 2) && (F i c).isSome) i c' = true
            then m' i c' / wsum i else m' i' c' := by
    intro m'
    funext i' c'
    unfold setEntry
    by_cases h3 : i' = i
    · subst h3
      match c' with
      | 0 => cases h0 : (F i' 0).isSome <;> cases h1 : (F i' 1).isSome <;> simp [h0, h1]
      | 1 => cases h0 : (F i' 0).isSome <;> cases h1 : (F i' 1).isSome <;> simp [h0, h1]
      | c + 2 => cases h0 : (F i' 0).isSome <;> cases h1 : (F i' 1).isSome <;> simp [h0, h1]
    · cases h0 : (F i 0).isSome <;> cases h1 : (F i 1).isSome <;> simp [h0, h1, h3]
  exact update_body sqrt 2 n (fun i c => decide (c < 2) && (F i c).isSome) x W D wsum i m _ hpost

theorem constrained_stress_major3D_xnew_eq (sqrt : R → R) (n : Nat) (x y : NumericMatrix R)
    (dim : Nat) (W D : NumericMatrix R) (wsum : Nat → R) :
    constrained_stress_major3D_xnew sqrt n x y dim W D wsum =
      updateBy sqrt 3 n (fun _ c => decide (c < 3) && decide (c ≠ dim - 1))
        (setColumn n (fun _ _ => 0) y (dim - 1)) x W D wsum := by
  unfold constrained_stress_major3D_xnew
  rw [← update_loops]
  refine congrArg (fun b => forLoop 0 n b (setColumn n (fun _ _ => 0) y (dim - 1))) ?_
  funext i m
  have inner : (fun j (xnew : NumericMatrix R) =>
      if i ≠ j then
        let denom := rowDist sqrt 3 x i j
        if denom > 1 / 100000 then
          forLoop 0 3 (fun d (xnew : NumericMatrix R) =>
            if d ≠ dim - 1 then
              setEntry xnew i d (xnew i d +
                W i j * (x j d + D i j * (x i d - x j d) / denom))
            else xnew) xnew
        else xnew
      else xnew) =
      (fun j (m : NumericMatrix R) => fun i' c' =>
        if i' = i then m i c' +
          (if (fun _ c => decide (c < 3) && decide (c ≠ dim - 1)) i c' = true then
            contribution sqrt 3 x W D i c' j else 0)
        else m i' c') := by
    funext j m
    have hd : (fun d (xnew : NumericMatrix R) =>
        if d ≠ dim - 1 then
          setEntry xnew i d (xnew i d +
            W i j * (x j d + D i j * (x i d - x j d) / rowDist sqrt 3 x i j))
        else xnew) =
        (fun d (m : NumericMatrix R) => fun i' c' =>
          if i' = i ∧ c' = d then
            (fun d r => if d ≠ dim - 1 then
              r + W i j * (x j d + D i j * (x i d - x j d) / rowDist sqrt 3 x i j) else r)
              d (m i d)
          else m i' c') := by
      funext d m i' c'
      unfold setEntry
      by_cases h : i' = i ∧ c' = d
      · obtain ⟨h1, h2⟩ := h
        subst h1 h2
        by_cases h5 : c' = dim - 1 <;> simp [h5]
      · by_cases h5 : d = dim - 1
        · subst h5
          simp [h]
        · simp [h5, h]
    simp only [hd]
    rw [forLoop_colMap 3 i (fun d r => if d ≠ dim - 1 then
      r + W i j * (x j d + D i j * (x i d - x j d) / rowDist sqrt 3 x i j) else r)]
    funext i' c'
    unfold contribution
    by_cases h1 : i = j
    · subst h1
      by_cases h3 : i' = i
      · subst h3
        simp
      · simp [h3]
    · simp only [ne_eq, h1, not_false_eq_true, if_true, true_and]
      by_cases h2 : rowDist sqrt 3 x i j > 1 / 100000
      · simp only [h2, if_true]
        by_cases h3 : i' = i <;> by_cases h4 : c' < 3 <;> by_cases h5 : c' = dim - 1 <;>
          simp [h3, h4, h5]
      · simp only [h2, if_false]
        by_cases h3 : i' = i
        · subst h3
          simp
        · simp [h3]
  simp only [inner]
  have hpost : ∀ m' : NumericMatrix R,
      (fun m' : NumericMatrix R =>
        forLoop 0 3 (fun d (xnew : NumericMatrix R) =>
          if d ≠ dim - 1 then setEntry xnew i d (xnew i d / wsum i) else xnew) m') m'
        = fun i' c' => if i' = i ∧ (fun _ c => decide (c < 3) && decide (c ≠ dim - 1)) i c' = true
            then m' i c' / wsum i else m' i' c' := by
    intro m'
    have hd : (fun d (xnew : NumericMatrix R) =>
        if d ≠ dim - 1 then setEntry xnew i d (xnew i d / wsum i) else xnew) =
        (fun d (m : NumericMatrix R) => fun i' c' =>
          if i' = i ∧ c' = d then
            (fun d r => if d ≠ dim - 1 then r / wsum i else r) d (m i d)
          else m i' c') := by
      funext d m i' c'
      unfold setEntry
      by_cases h : i' = i ∧ c' = d
      · obtain ⟨h1, h2⟩ := h
        subst h1 h2
        by_cases h5 : c' = dim - 1 <;> simp [h5]
      · by_cases h5 : d = dim - 1
        · subst h5
          simp [h]
        · simp [h5, h]
    simp only [hd]
    rw [forLoop_colMap 3 i (fun d r => if d ≠ dim - 1 then r / wsum i else r)]
    funext i' c'
    by_cases h3 : i' = i <;> by_cases h4 : c' < 3 <;> by_cases h5 : c' = dim - 1 <;>
      simp [h3, h4, h5]
  exact update_body sqrt 3 n (fun _ c => decide (c < 3) && decide (c ≠ dim - 1)) x W D wsum i m
    _ hpost

end Update

/-! ## The iteration loop -/

section Iteration

variable {R : Type} [LinearOrderedField R]

theorem constrained_stress_major_loop_eq (sqrt : R → R) (n : Nat) (y : NumericMatrix R)
    (dim : Nat) (W D : NumericMatrix R) (wsum : Nat → R) (tol : R) (k : Nat)
    (x : NumericMatrix R) (s : R) :
    constrained_stress_major_loop sqrt n y dim W D wsum tol k x s =
      majorLoop (fun x => constrained_stress_major_xnew sqrt n x y dim W D wsum)
        (fun x => constrained_stress sqrt n x W D) tol k x s := by
  induction k generalizing x s with
  | zero => rfl
  | succ k ih =>
    simp only [constrained_stress_major_loop, majorLoop]
    split_ifs
    · rfl
    · exact ih _ _

theorem fixed_stress_major_loop_eq (sqrt : R → R) (n : Nat) (F : NumericMatrix (Option R))
    (W D : NumericMatrix R) (wsum : Nat → R) (tol : R) (k : Nat)
    (x : NumericMatrix R) (s : R) :
    fixed_stress_major_loop sqrt n F W D wsum tol k x s =
      majorLoop (fun x => fixed_stress_major_xnew sqrt n x F W D wsum)
        (fun x => constrained_stress sqrt n x W D) tol k x s := by
  induction k generalizing x s with
  | zero => rfl
  | succ k ih =>
    simp only [fixed_stress_major_loop, majorLoop]
    split_ifs
    · rfl
    · exact ih _ _

theorem constrained_stress_major3D_loop_eq (sqrt : R → R) (n : Nat) (y : NumericMatrix R)
    (dim : Nat) (W D : NumericMatrix R) (wsum : Nat → R) (tol : R) (k : Nat)
    (x : NumericMatrix R) (s : R) :
    constrained_stress_major3D_loop sqrt n y dim W D wsum tol k x s =
      majorLoop (fun x => constrained_stress_major3D_xnew sqrt n x y dim W D wsum)
        (fun x => constrained_stress3D sqrt n x W D) tol k x s := by
  induction k generalizing x s with
  | zero => rfl
  | succ k ih =>
    simp only [constrained_stress_major3D_loop, majorLoop]
    split_ifs
    · rfl
    · exact ih _ _

/-- A property of `x` that every accepted update keeps holds when the loop is left. -/
theorem majorLoop_inv (step : NumericMatrix R → NumericMatrix R) (stress : NumericMatrix R → R)
    (tol : R) (Q : NumericMatrix R → Prop)
    (hstep : ∀ x, Q x → eps_le_tol (stress x) (stress (step x)) tol = false → Q (step x))
    (k : Nat) (x : NumericMatrix R) (hx : Q x) :
    Q (majorLoop step stress tol k x (stress x)) := by
  induction k generalizing x with
  | zero => exact hx
  | succ k ih =>
    unfold majorLoop
    cases h : eps_le_tol (stress x) (stress (step x)) tol
    · simp only [Bool.false_eq_true, if_false]
      exact ih (step x) (hstep x hx h)
    · simp only [if_true]
      exact hx

/-- When the test is first met in iteration `j` (counted from 0) of at least `j + 1`
iterations, the loop is left with the `j`-th iterate: the update of that iteration is
dropped. -/
theorem majorLoop_break (step : NumericMatrix R → NumericMatrix R) (stress : NumericMatrix R → R)
    (tol : R) (j : Nat) :
    ∀ (k : Nat) (x : NumericMatrix R), j < k →
      (∀ l, l < j → eps_le_tol (stress (step^[l] x)) (stress (step^[l + 1] x)) tol = false) →
      eps_le_tol (stress (step^[j] x)) (stress (step^[j + 1] x)) tol = true →
      majorLoop step stress tol k x (stress x) = step^[j] x := by
  induction j with
  | zero =>
    intro k x hk _ hj
    obtain ⟨k, rfl⟩ : ∃ k', k = k' + 1 := ⟨k - 1, by omega⟩
    unfold majorLoop
    simp only [Function.iterate_zero, id_eq, Function.iterate_succ, Function.comp_apply] at hj
    simp [hj]
  | succ j ih =>
    intro k x hk hl hj
    obtain ⟨k, rfl⟩ : ∃ k', k = k' + 1 := ⟨k - 1, by omega⟩
    unfold majorLoop
    have h0 := hl 0 (Nat.succ_pos j)
    simp only [Function.iterate_zero, id_eq, Function.iterate_succ, Function.comp_apply] at h0
    simp only [h0, Bool.false_eq_true, if_false]
    rw [Function.iterate_succ_apply]
    refine ih k (step x) (by omega) ?_ ?_
    · intro l hlj
      have := hl (l + 1) (by omega)
      simpa only [Function.iterate_succ_apply] using this
    · simpa only [Function.iterate_succ_apply] using hj

/-- When the test is met in none of the `k` iterations, the loop is left with the `k`-th
iterate. -/
theorem majorLoop_exhaust (step : NumericMatrix R → NumericMatrix R)
    (stress : NumericMatrix R → R) (tol : R) :
    ∀ (k : Nat) (x : NumericMatrix R),
      (∀ l, l < k → eps_le_tol (stress (step^[l] x)) (stress (step^[l + 1] x)) tol = false) →
      majorLoop step stress tol k x (stress x) = step^[k] x := by
  intro k
  induction k with
  | zero =>
    intro x _
    rfl
  | succ k ih =>
    intro x hl
    unfold majorLoop
    have h0 := hl 0 (Nat.succ_pos k)
    simp only [Function.iterate_zero, id_eq, Function.iterate_succ, Function.comp_apply] at h0
    simp only [h0, Bool.false_eq_true, if_false]
    rw [Function.iterate_succ_apply]
    refine ih (step x) ?_
    intro l hlk
    have := hl (l + 1) (by omega)
    simpa only [Function.iterate_succ_apply] using this

end Iteration

/-! ## Configurations of two points -/

section TwoPoints

variable {R : Type} [LinearOrderedField R]

theorem constrained_stress_two (sqrt : R → R) (x W D : NumericMatrix R) :
    constrained_stress sqrt 2 x W D = W 0 1 * (euclid sqrt 2 x 0 1 - D 0 1) ^ 2 := by
  rw [euclid_two]
  simp [constrained_stress, forLoop, List.range']
  ring

theorem constrained_stress3D_two (sqrt : R → R) (x W D : NumericMatrix R) :
    constrained_stress3D sqrt 2 x W D = W 0 1 * (euclid sqrt 3 x 0 1 - D 0 1) ^ 2 := by
  rw [euclid_three]
  simp [constrained_stress3D, forLoop, List.range']
  ring

end TwoPoints

/-! ## Concrete evaluations -/

section Concrete

theorem isqrt_one : isqrt 1 = 1 := by decide

theorem sqrtQ_zero : sqrtQ 0 = 0 := by
  have h : isqrt 0 = 0 := by decide
  simp [sqrtQ, h]

theorem sqrtQ_64 : sqrtQ 64 = 8 := by
  have h : isqrt 64 = 8 := by decide
  simp [sqrtQ, h, isqrt_one]

theorem sqrtQ_100 : sqrtQ 100 = 10 := by
  have h : isqrt 100 = 10 := by decide
  simp [sqrtQ, h, isqrt_one]

theorem W0_nonneg (i j : Nat) : 0 ≤ W0 i j := by
  unfold W0
  split_ifs <;> norm_num

theorem euclid2_y0 : euclid sqrtQ 2 y0 0 1 = 10 := by
  rw [euclid_two]
  norm_num [y0, sqrtQ_100]

theorem euclid3_y0 : euclid sqrtQ 3 y0 0 1 = 10 := by
  rw [euclid_three]
  norm_num [y0, sqrtQ_100]

theorem stress_y0 : constrained_stress sqrtQ 2 y0 W0 D0 = 25 := by
  rw [constrained_stress_two, euclid2_y0]
  norm_num [W0, D0]

theorem stress3D_y0 : constrained_stress3D sqrtQ 2 y0 W0 D0 = 25 := by
  rw [constrained_stress3D_two, euclid3_y0]
  norm_num [W0, D0]

theorem stress_y0_D1 : constrained_stress sqrtQ 2 y0 W0 D1 = 81 := by
  rw [constrained_stress_two, euclid2_y0]
  norm_num [W0, D1]

/-- The update of `y0` with axis 2 fixed moves both points to first coordinate 3. -/
theorem xnew_y0 (i c : Nat) (hi : i < 2) (hc : c < 2) :
    constrained_stress_major_xnew sqrtQ 2 y0 y0 2 W0 D0 (rowSums 2 W0) i c =
      if c = 0 then 3 else y0 i c := by
  rw [constrained_stress_major_xnew_eq]
  have h10 : rowDist sqrtQ 2 y0 1 0 = 10 := by
    simp [rowDist, forLoop, List.range', y0]
    norm_num [sqrtQ_100]
  have h01 : rowDist sqrtQ 2 y0 0 1 = 10 := by
    simp [rowDist, forLoop, List.range', y0]
    norm_num [sqrtQ_100]
  interval_cases i <;> interval_cases c <;>
    simp [updateBy, setColumn, contribution, rowSums, forLoop, List.range',
      Finset.sum_range_succ, h10, h01] <;>
    norm_num [y0, W0, D0]

theorem stress_xnew_y0 :
    constrained_stress sqrtQ 2
      (constrained_stress_major_xnew sqrtQ 2 y0 y0 2 W0 D0 (rowSums 2 W0)) W0 D0 = 9 := by
  rw [constrained_stress_two, euclid_two]
  simp only [xnew_y0 0 0 (by decide) (by decide), xnew_y0 0 1 (by decide) (by decide),
    xnew_y0 1 0 (by decide) (by decide), xnew_y0 1 1 (by decide) (by decide)]
  norm_num [y0, W0, D0, sqrtQ_64]

/-- The update of `y0` in three dimensions with axis 3 fixed moves both points to
`(3, 4, 0)`. -/
theorem xnew3D_y0 (i c : Nat) (hi : i < 2) (hc : c < 3) :
    constrained_stress_major3D_xnew sqrtQ 2 y0 y0 3 W0 D0 (rowSums 2 W0) i c =
      if c = 0 then 3 else if c = 1 then 4 else 0 := by
  rw [constrained_stress_major3D_xnew_eq]
  have h10 : rowDist sqrtQ 3 y0 1 0 = 10 := by
    simp [rowDist, forLoop, List.range', y0]
    norm_num [sqrtQ_100]
  have h01 : rowDist sqrtQ 3 y0 0 1 = 10 := by
    simp [rowDist, forLoop, List.range', y0]
    norm_num [sqrtQ_100]
  interval_cases i <;> interval_cases c <;>
    simp [updateBy, setColumn, contribution, rowSums, forLoop, List.range',
      Finset.sum_range_succ, h10, h01] <;>
    norm_num [y0, W0, D0]

theorem stress3D_xnew_y0 :
    constrained_stress3D sqrtQ 2
      (constrained_stress_major3D_xnew sqrtQ 2 y0 y0 3 W0 D0 (rowSums 2 W0)) W0 D0 = 25 := by
  rw [constrained_stress3D_two, euclid_three]
  simp only [xnew3D_y0 0 0 (by decide) (by decide), xnew3D_y0 0 1 (by decide) (by decide),
    xnew3D_y0 0 2 (by decide) (by decide), xnew3D_y0 1 0 (by decide) (by decide),
    xnew3D_y0 1 1 (by decide) (by decide), xnew3D_y0 1 2 (by decide) (by decide)]
  norm_num [W0, D0, sqrtQ_zero]

/-- With every entry of `fixedCoords` `NA`, the pass of `fixed_stress_major` leaves `xnew`
zero. -/
theorem xnew_FNA (x W D : NumericMatrix ℚ) (wsum : Nat → ℚ) (n i c : Nat) :
    fixed_stress_major_xnew sqrtQ n x FNA W D wsum i c = 0 := by
  rw [fixed_stress_major_xnew_eq, replaceNA_eq]
  simp [updateBy, FNA]

theorem stress_xnew_FNA (x W D' : NumericMatrix ℚ) (wsum : Nat → ℚ) (D : NumericMatrix ℚ) :
    constrained_stress sqrtQ 2 (fixed_stress_major_xnew sqrtQ 2 x FNA W0 D' wsum) W D =
      W 0 1 * (D 0 1) ^ 2 := by
  rw [constrained_stress_two, euclid_two]
  simp only [xnew_FNA]
  norm_num [sqrtQ_zero]

end Concrete

/-! ## Properties of the solvers -/

section Claims

variable {R : Type} [LinearOrderedField R]

theorem constrained_stress_nonneg (sqrt : R → R) (n : Nat) (x W D : NumericMatrix R)
    (hW : ∀ i j, i < n → j < n → 0 ≤ W i j) : 0 ≤ constrained_stress sqrt n x W D := by
  rw [constrained_stress_eq_spec]
  exact stressSpec_nonneg sqrt 2 n x W D hW

theorem constrained_stress3D_nonneg (sqrt : R → R) (n : Nat) (x W D : NumericMatrix R)
    (hW : ∀ i j, i < n → j < n → 0 ≤ W i j) : 0 ≤ constrained_stress3D sqrt n x W D := by
  rw [constrained_stress3D_eq_spec]
  exact stressSpec_nonneg sqrt 3 n x W D hW

/-- C1. Fixed-axis invariance: for every initial configuration, every axis index `dim` in
`1..d`, every `W`, `D`, `iter` and `tol`, column `dim` (index `dim - 1`) of the configuration
returned by `constrained_stress_major` (`d = 2`) and by `constrained_stress_major3D` (`d = 3`)
equals the same column of the initial configuration at every point `i < n`. -/
theorem fixed_axis_invariance (sqrt : R → R) (n : Nat) (y y3 W D : NumericMatrix R)
    (dim dim3 : Nat) (iter : Int) (tol : R) (i : Nat) (hi : i < n)
    (_hdim : 1 ≤ dim ∧ dim ≤ 2) (_hdim3 : 1 ≤ dim3 ∧ dim3 ≤ 3) :
    constrained_stress_major sqrt n y dim W D iter tol i (dim - 1) = y i (dim - 1) ∧
    constrained_stress_major3D sqrt n y3 dim3 W D iter tol i (dim3 - 1) = y3 i (dim3 - 1) := by
  constructor
  · unfold constrained_stress_major
    simp only [constrained_stress_major_loop_eq]
    refine majorLoop_inv _ (fun x => constrained_stress sqrt n x W D) tol
      (fun x => x i (dim - 1) = y i (dim - 1)) ?_ iter.toNat y rfl
    intro x _ _
    show constrained_stress_major_xnew sqrt n x y dim W D (rowSums n W) i (dim - 1) = _
    rw [constrained_stress_major_xnew_eq]
    unfold updateBy setColumn
    have hne : dim - 1 ≠ 1 - (dim - 1) := by omega
    simp [hi, hne]
  · unfold constrained_stress_major3D
    simp only [constrained_stress_major3D_loop_eq]
    refine majorLoop_inv _ (fun x => constrained_stress3D sqrt n x W D) tol
      (fun x => x i (dim3 - 1) = y3 i (dim3 - 1)) ?_ iter.toNat y3 rfl
    intro x _ _
    show constrained_stress_major3D_xnew sqrt n x y3 dim3 W D (rowSums n W) i (dim3 - 1) = _
    rw [constrained_stress_major3D_xnew_eq]
    unfold updateBy setColumn
    simp [hi]

/-- Witness of C1: two points, axis 2 fixed, five iterations. -/
theorem fixed_axis_invariance_witness :
    constrained_stress_major sqrtQ 2 y0 2 W0 D0 5 0 1 (2 - 1) = y0 1 (2 - 1) ∧
    constrained_stress_major3D sqrtQ 2 y0 3 W0 D0 5 0 1 (3 - 1) = y0 1 (3 - 1) :=
  fixed_axis_invariance sqrtQ 2 y0 y0 W0 D0 2 3 5 0 1 (by decide) (by decide) (by decide)

/-- C6. Zero iteration budget: with `iter = 0` each of the three solvers returns the initial
configuration `y`, entry for entry, and hence a configuration with the stress of `y`. -/
theorem zero_iterations (sqrt : R → R) (n : Nat) (y W D : NumericMatrix R) (dim : Nat)
    (F : NumericMatrix (Option R)) (tol : R) :
    constrained_stress_major sqrt n y dim W D 0 tol = y ∧
    constrained_stress_major3D sqrt n y dim W D 0 tol = y ∧
    fixed_stress_major sqrt n y F W D 0 tol = y ∧
    constrained_stress sqrt n (constrained_stress_major sqrt n y dim W D 0 tol) W D =
      constrained_stress sqrt n y W D ∧
    constrained_stress3D sqrt n (constrained_stress_major3D sqrt n y dim W D 0 tol) W D =
      constrained_stress3D sqrt n y W D ∧
    constrained_stress sqrt n (fixed_stress_major sqrt n y F W D 0 tol) W D =
      constrained_stress sqrt n y W D :=
  ⟨rfl, rfl, rfl, rfl, rfl, rfl⟩

/-- C7. Stress reference definition: `constrained_stress` (`d = 2`) and `constrained_stress3D`
(`d = 3`) return the sum over all pairs `i < j` of `W(i,j) * (delta_ij - D(i,j))^2`, with
`delta_ij` the Euclidean distance of rows `i` and `j` over all `d` axes, and the value is 0
when `n < 2`. -/
theorem stress_reference (sqrt : R → R) (n : Nat) (x W D : NumericMatrix R) :
    constrained_stress sqrt n x W D = stressSpec sqrt 2 n x W D ∧
    constrained_stress3D sqrt n x W D = stressSpec sqrt 3 n x W D ∧
    (n < 2 → constrained_stress sqrt n x W D = 0 ∧ constrained_stress3D sqrt n x W D = 0) := by
  refine ⟨constrained_stress_eq_spec sqrt n x W D, constrained_stress3D_eq_spec sqrt n x W D, ?_⟩
  intro hn
  have h0 : n - 1 ≤ 0 := by omega
  exact ⟨forLoop_empty 0 (n - 1) h0 _ 0, forLoop_empty 0 (n - 1) h0 _ 0⟩

/-- Witness of C7: a single point has stress 0. -/
theorem stress_reference_witness :
    constrained_stress sqrtQ 1 y0 W0 D0 = 0 ∧ constrained_stress3D sqrtQ 1 y0 W0 D0 = 0 :=
  (stress_reference sqrtQ 1 y0 W0 D0).2.2 (by decide)

/-- C8. Stress non-negativity: when all entries of `W` are `>= 0`, `constrained_stress` and
`constrained_stress3D` are `>= 0` on every configuration. -/
theorem stress_nonneg (sqrt : R → R) (n : Nat) (x W D : NumericMatrix R)
    (hW : ∀ i j, i < n → j < n → 0 ≤ W i j) :
    0 ≤ constrained_stress sqrt n x W D ∧ 0 ≤ constrained_stress3D sqrt n x W D :=
  ⟨constrained_stress_nonneg sqrt n x W D hW, constrained_stress3D_nonneg sqrt n x W D hW⟩

/-- Witness of C8: the two points of `y0` under unit weights. -/
theorem stress_nonneg_witness :
    0 ≤ constrained_stress sqrtQ 2 y0 W0 D0 ∧ 0 ≤ constrained_stress3D sqrtQ 2 y0 W0 D0 :=
  stress_nonneg sqrtQ 2 y0 W0 D0 (fun i j _ _ => W0_nonneg i j)

/-- C9. Zero stress iff exact reproduction: when all entries of `W` are `>= 0`, the stress of
`x` is 0 if and only if for every pair `i < j` with `W(i,j) > 0` the Euclidean distance of rows
`i` and `j` of `x` equals `D(i,j)`; for `constrained_stress` over 2 axes and for
`constrained_stress3D` over 3. -/
theorem zero_stress_iff (sqrt : R → R) (n : Nat) (x W D : NumericMatrix R)
    (hW : ∀ i j, i < n → j < n → 0 ≤ W i j) :
    (constrained_stress sqrt n x W D = 0 ↔
      ∀ i j, i < j → j < n → 0 < W i j → euclid sqrt 2 x i j = D i j) ∧
    (constrained_stress3D sqrt n x W D = 0 ↔
      ∀ i j, i < j → j < n → 0 < W i j → euclid sqrt 3 x i j = D i j) := by
  rw [constrained_stress_eq_spec, constrained_stress3D_eq_spec]
  exact ⟨stressSpec_eq_zero_iff sqrt 2 n x W D hW, stressSpec_eq_zero_iff sqrt 3 n x W D hW⟩

/-- Witness of C9: the two points of `y0` under unit weights. -/
theorem zero_stress_iff_witness :
    (constrained_stress sqrtQ 2 y0 W0 D0 = 0 ↔
      ∀ i j, i < j → j < 2 → 0 < W0 i j → euclid sqrtQ 2 y0 i j = D0 i j) ∧
    (constrained_stress3D sqrtQ 2 y0 W0 D0 = 0 ↔
      ∀ i j, i < j → j < 2 → 0 < W0 i j → euclid sqrtQ 3 y0 i j = D0 i j) :=
  zero_stress_iff sqrtQ 2 y0 W0 D0 (fun i j _ _ => W0_nonneg i j)

theorem rowSums_eq_sum (n : Nat) (W : NumericMatrix R) (i : Nat) :
    rowSums n W i = ∑ j in Finset.range n, W i j := by
  unfold rowSums
  rw [forLoop_sum, zero_add, Finset.range_eq_Ico]

theorem sum_contribution (sqrt : R → R) (d n : Nat) (x W D : NumericMatrix R) (i a : Nat) :
    ∑ j in Finset.range n, contribution sqrt d x W D i a j =
      ∑ j in (Finset.range n).filter (fun j => j ≠ i ∧ euclid sqrt d x i j > 1 / 100000),
        W i j * (x j a + D i j * (x i a - x j a) / euclid sqrt d x i j) := by
  rw [Finset.sum_filter]
  refine Finset.sum_congr rfl (fun j _ => ?_)
  unfold contribution
  rw [rowDist_eq_euclid]
  by_cases h : j = i
  · subst h
    simp
  · have h' : i ≠ j := fun e => h e.symm
    simp only [ne_eq, h, h', not_false_eq_true, true_and]

/-- An entry that a pass updates and that starts at 0 ends as the update of the
specification. -/
theorem updateBy_free (sqrt : R → R) (d n : Nat) (free : Nat → Nat → Bool)
    (init x W D : NumericMatrix R) (i a : Nat) (hi : i < n) (hfree : free i a = true)
    (hinit : init i a = 0) :
    updateBy sqrt d n free init x W D (rowSums n W) i a = guttman sqrt d n x W D i a := by
  unfold updateBy guttman
  rw [if_pos ⟨hi, hfree⟩, hinit, zero_add, sum_contribution, rowSums_eq_sum]

/-- C10. Guttman update on free axes in axis-fixed mode: in a pass of
`constrained_stress_major` (axis `a` the one axis other than `dim`) and of
`constrained_stress_major3D` (axis `a3` one of the two axes other than `dim3`), for every point
`i < n` the entry `xnew[i][a]` is the sum over `j != i` at previous distance above `1e-5` of
`W(i,j) * (x[j][a] + D(i,j) * (x[i][a] - x[j][a]) / dist(i,j))` divided by the sum over `j` of
`W(i,j)`, every value read from the previous iterate `x`. -/
theorem guttman_update_axis_fixed (sqrt : R → R) (n : Nat) (x y y3 W D : NumericMatrix R)
    (dim dim3 i a a3 : Nat) (hi : i < n)
    (hdim : 1 ≤ dim ∧ dim ≤ 2) (_hdim3 : 1 ≤ dim3 ∧ dim3 ≤ 3)
    (ha : a < 2 ∧ a ≠ dim - 1) (ha3 : a3 < 3 ∧ a3 ≠ dim3 - 1) :
    constrained_stress_major_xnew sqrt n x y dim W D (rowSums n W) i a =
      guttman sqrt 2 n x W D i a ∧
    constrained_stress_major3D_xnew sqrt n x y3 dim3 W D (rowSums n W) i a3 =
      guttman sqrt 3 n x W D i a3 := by
  constructor
  · rw [constrained_stress_major_xnew_eq]
    refine updateBy_free sqrt 2 n _ _ x W D i a hi ?_ ?_
    · have : a = 1 - (dim - 1) := by omega
      simp [this]
    · unfold setColumn
      simp [ha.2]
  · rw [constrained_stress_major3D_xnew_eq]
    refine updateBy_free sqrt 3 n _ _ x W D i a3 hi ?_ ?_
    · simp [ha3.1, ha3.2]
    · unfold setColumn
      simp [ha3.2]

/-- Witness of C10: point 1 of `y0`; axis 2 fixed in two dimensions, axis 3 fixed in three. -/
theorem guttman_update_axis_fixed_witness :
    constrained_stress_major_xnew sqrtQ 2 y0 y0 2 W0 D0 (rowSums 2 W0) 1 0 =
      guttman sqrtQ 2 2 y0 W0 D0 1 0 ∧
    constrained_stress_major3D_xnew sqrtQ 2 y0 y0 3 W0 D0 (rowSums 2 W0) 1 1 =
      guttman sqrtQ 3 2 y0 W0 D0 1 1 :=
  guttman_update_axis_fixed sqrtQ 2 y0 y0 y0 W0 D0 2 3 1 0 1 (by decide) (by decide)
    (by decide) (by decide) (by decide)

/-- C4, as the code has it. When the tolerance test is first met in iteration `j` (counted
from 0, `j < iter`), each solver returns the configuration it had before that iteration, the
`j`-th iterate of the update on `y`; the `xnew` of that iteration is dropped. For `j = 0` the
result is `y`. -/
theorem converged_returns_previous (sqrt : R → R) (n : Nat) (y y3 W D : NumericMatrix R)
    (dim dim3 : Nat) (F : NumericMatrix (Option R)) (iter : Int) (tol : R) (j : Nat)
    (hj : (j : Int) < iter) :
    ((∀ l, l < j →
        eps_le_tol (constrained_stress sqrt n (constrained_stress_major_iterate sqrt n y dim W D l) W D)
          (constrained_stress sqrt n (constrained_stress_major_iterate sqrt n y dim W D (l + 1)) W D)
          tol = false) →
      eps_le_tol (constrained_stress sqrt n (constrained_stress_major_iterate sqrt n y dim W D j) W D)
        (constrained_stress sqrt n (constrained_stress_major_iterate sqrt n y dim W D (j + 1)) W D)
        tol = true →
      constrained_stress_major sqrt n y dim W D iter tol =
        constrained_stress_major_iterate sqrt n y dim W D j) ∧
    ((∀ l, l < j →
        eps_le_tol
          (constrained_stress3D sqrt n (constrained_stress_major3D_iterate sqrt n y3 dim3 W D l) W D)
          (constrained_stress3D sqrt n
            (constrained_stress_major3D_iterate sqrt n y3 dim3 W D (l + 1)) W D)
          tol = false) →
      eps_le_tol
        (constrained_stress3D sqrt n (constrained_stress_major3D_iterate sqrt n y3 dim3 W D j) W D)
        (constrained_stress3D sqrt n
          (constrained_stress_major3D_iterate sqrt n y3 dim3 W D (j + 1)) W D)
        tol = true →
      constrained_stress_major3D sqrt n y3 dim3 W D iter tol =
        constrained_stress_major3D_iterate sqrt n y3 dim3 W D j) ∧
    ((∀ l, l < j →
        eps_le_tol (constrained_stress sqrt n (fixed_stress_major_iterate sqrt n y F W D l) W D)
          (constrained_stress sqrt n (fixed_stress_major_iterate sqrt n y F W D (l + 1)) W D)
          tol = false) →
      eps_le_tol (constrained_stress sqrt n (fixed_stress_major_iterate sqrt n y F W D j) W D)
        (constrained_stress sqrt n (fixed_stress_major_iterate sqrt n y F W D (j + 1)) W D)
        tol = true →
      fixed_stress_major sqrt n y F W D iter tol = fixed_stress_major_iterate sqrt n y F W D j) := by
  have hk : j < iter.toNat := by omega
  refine ⟨?_, ?_, ?_⟩
  · intro hl hmet
    unfold constrained_stress_major
    simp only [constrained_stress_major_loop_eq]
    exact majorLoop_break _ (fun x => constrained_stress sqrt n x W D) tol j iter.toNat y hk
      hl hmet
  · intro hl hmet
    unfold constrained_stress_major3D
    simp only [constrained_stress_major3D_loop_eq]
    exact majorLoop_break _ (fun x => constrained_stress3D sqrt n x W D) tol j iter.toNat y3 hk
      hl hmet
  · intro hl hmet
    unfold fixed_stress_major
    simp only [fixed_stress_major_loop_eq]
    exact majorLoop_break _ (fun x => constrained_stress sqrt n x W D) tol j iter.toNat y hk
      hl hmet

theorem eps_le_tol_25_9 : eps_le_tol (25 : ℚ) 9 1 = true := by
  unfold eps_le_tol
  norm_num

theorem eps_le_tol_25_25 : eps_le_tol (25 : ℚ) 25 1 = true := by
  unfold eps_le_tol
  norm_num

theorem eps_le_tol_81_1 : eps_le_tol (81 : ℚ) 1 0 = false := by
  unfold eps_le_tol
  norm_num

/-- Witness of C4 as the code has it: on `y0` with `tol = 1` the test is met in the first
iteration of each solver, and each returns `y0`. -/
theorem converged_returns_previous_witness :
    constrained_stress_major sqrtQ 2 y0 2 W0 D0 1 1 = y0 ∧
    constrained_stress_major3D sqrtQ 2 y0 3 W0 D0 1 1 = y0 ∧
    fixed_stress_major sqrtQ 2 y0 FNA W0 D0 1 1 = y0 :=
  have h := converged_returns_previous sqrtQ 2 y0 y0 W0 D0 2 3 FNA 1 1 0 (by decide)
  ⟨h.1 (fun l hl => absurd hl (Nat.not_lt_zero l))
      (by
        show eps_le_tol (constrained_stress sqrtQ 2 y0 W0 D0)
          (constrained_stress sqrtQ 2
            (constrained_stress_major_xnew sqrtQ 2 y0 y0 2 W0 D0 (rowSums 2 W0)) W0 D0) 1 = true
        rw [stress_y0, stress_xnew_y0]
        exact eps_le_tol_25_9),
    h.2.1 (fun l hl => absurd hl (Nat.not_lt_zero l))
      (by
        show eps_le_tol (constrained_stress3D sqrtQ 2 y0 W0 D0)
          (constrained_stress3D sqrtQ 2
            (constrained_stress_major3D_xnew sqrtQ 2 y0 y0 3 W0 D0 (rowSums 2 W0)) W0 D0) 1 = true
        rw [stress3D_y0, stress3D_xnew_y0]
        exact eps_le_tol_25_25),
    h.2.2 (fun l hl => absurd hl (Nat.not_lt_zero l))
      (by
        show eps_le_tol (constrained_stress sqrtQ 2 y0 W0 D0)
          (constrained_stress sqrtQ 2
            (fixed_stress_major_xnew sqrtQ 2 y0 FNA W0 D0 (rowSums 2 W0)) W0 D0) 1 = true
        rw [stress_y0, stress_xnew_FNA]
        norm_num [W0, D0]
        exact eps_le_tol_25_25)⟩

/-- C4 fails as stated: on `y0` with axis 2 fixed, `iter = 1` and `tol = 1` the test is met
in the first iteration, and `constrained_stress_major` returns a configuration other than the
`xnew` of that iteration: entry `(0, 0)` is 0 in the result and 3 in `xnew`. -/
theorem converged_returns_xnew_counterexample :
    eps_le_tol (constrained_stress sqrtQ 2 y0 W0 D0)
      (constrained_stress sqrtQ 2
        (constrained_stress_major_xnew sqrtQ 2 y0 y0 2 W0 D0 (rowSums 2 W0)) W0 D0) 1 = true ∧
    constrained_stress_major sqrtQ 2 y0 2 W0 D0 1 1 0 0 = 0 ∧
    constrained_stress_major_xnew sqrtQ 2 y0 y0 2 W0 D0 (rowSums 2 W0) 0 0 = 3 ∧
    constrained_stress_major sqrtQ 2 y0 2 W0 D0 1 1 ≠
      constrained_stress_major_xnew sqrtQ 2 y0 y0 2 W0 D0 (rowSums 2 W0) := by
  have hmet : eps_le_tol (constrained_stress sqrtQ 2 y0 W0 D0)
      (constrained_stress sqrtQ 2
        (constrained_stress_major_xnew sqrtQ 2 y0 y0 2 W0 D0 (rowSums 2 W0)) W0 D0) 1 = true := by
    rw [stress_y0, stress_xnew_y0]
    exact eps_le_tol_25_9
  have hres : constrained_stress_major sqrtQ 2 y0 2 W0 D0 1 1 = y0 := by
    show constrained_stress_major_loop sqrtQ 2 y0 2 W0 D0 (rowSums 2 W0) 1 1 y0
      (constrained_stress sqrtQ 2 y0 W0 D0) = y0
    unfold constrained_stress_major_loop
    simp only [hmet, if_true]
  have hx : constrained_stress_major_xnew sqrtQ 2 y0 y0 2 W0 D0 (rowSums 2 W0) 0 0 = 3 := by
    rw [xnew_y0 0 0 (by decide) (by decide)]
    rfl
  refine ⟨hmet, ?_, hx, ?_⟩
  · rw [hres]
    rfl
  · intro h
    have h00 := congrFun (congrFun h 0) 0
    rw [hres, hx] at h00
    norm_num [y0] at h00

/-- What a pass of `fixed_stress_major` leaves in row `i < n`, column `a < 2`: an entry whose
`fixedCoords` entry is `NA` is 0, and an entry whose `fixedCoords` entry is the value `v` is
`v` plus the contributions of the other points, divided by `wsum[i]`. -/
theorem fixed_stress_major_xnew_entry (sqrt : R → R) (n : Nat) (x : NumericMatrix R)
    (F : NumericMatrix (Option R)) (W D : NumericMatrix R) (wsum : Nat → R) (i a : Nat)
    (hi : i < n) (ha : a < 2) :
    fixed_stress_major_xnew sqrt n x F W D wsum i a =
      match F i a with
      | none => 0
      | some v => (v + ∑ j in Finset.range n, contribution sqrt 2 x W D i a j) / wsum i := by
  rw [fixed_stress_major_xnew_eq, replaceNA_eq]
  unfold updateBy
  cases hF : F i a with
  | none => simp [hF, hi, ha]
  | some v => simp [hF, hi, ha]

/-- C2, as the code has it. For an entry `(i, a)` whose `fixedCoords` entry is the value `v`:
`replaceNA` sets the entry to `v` in every matrix, as it does to `xnew` at the start of each
iteration; and when `fixed_stress_major` accepts no update (`iter <= 0`, or the tolerance test
met in the first iteration) it returns `y`, so that the entry of the result equals `v` exactly
when `y(i, a)` does. -/
theorem fixed_entries_start (sqrt : R → R) (n : Nat) (x y : NumericMatrix R)
    (F : NumericMatrix (Option R)) (W D : NumericMatrix R) (iter : Int) (tol : R)
    (i a : Nat) (v : R) (hi : i < n) (ha : a < 2) (hF : F i a = some v)
    (hstop : iter ≤ 0 ∨
      eps_le_tol (constrained_stress sqrt n y W D)
        (constrained_stress sqrt n
          (fixed_stress_major_xnew sqrt n y F W D (rowSums n W)) W D) tol = true) :
    replaceNA n 2 x F i a = v ∧
    fixed_stress_major sqrt n y F W D iter tol = y ∧
    (fixed_stress_major sqrt n y F W D iter tol i a = v ↔ y i a = v) := by
  have hres : fixed_stress_major sqrt n y F W D iter tol = y := by
    unfold fixed_stress_major
    rcases hstop with h0 | hmet
    · have : iter.toNat = 0 := by omega
      rw [this]
      rfl
    · cases hk : iter.toNat with
      | zero => rfl
      | succ k =>
        show fixed_stress_major_loop sqrt n F W D (rowSums n W) tol (k + 1) y
          (constrained_stress sqrt n y W D) = y
        unfold fixed_stress_major_loop
        simp only [hmet, if_true]
  refine ⟨?_, hres, ?_⟩
  · rw [replaceNA_eq]
    simp [hi, ha, hF]
  · rw [hres]

/-- Witness of C2 as the code has it: `F6` fixes entry `(1, 0)` to 6, the value `y0` has
there, and `iter = 0`. -/
theorem fixed_entries_start_witness :
    replaceNA 2 2 (fun _ _ => 0) F6 1 0 = 6 ∧
    fixed_stress_major sqrtQ 2 y0 F6 W0 D0 0 0 = y0 ∧
    (fixed_stress_major sqrtQ 2 y0 F6 W0 D0 0 0 1 0 = 6 ↔ y0 1 0 = 6) :=
  fixed_entries_start sqrtQ 2 (fun _ _ => 0) y0 F6 W0 D0 0 0 1 0 6 (by decide) (by decide)
    (by simp [F6]) (Or.inl (le_refl 0))

/-- C2 fails as stated: `F1` fixes entry `(0, 0)` to 7, and with `iter = 0` the result has
`y0(0, 0) = 0` there. -/
theorem fixed_entry_counterexample :
    F1 0 0 = some 7 ∧ fixed_stress_major sqrtQ 2 y0 F1 W0 D0 0 0 0 0 = 0 ∧
    fixed_stress_major sqrtQ 2 y0 F1 W0 D0 0 0 0 0 ≠ 7 := by
  have hres : fixed_stress_major sqrtQ 2 y0 F1 W0 D0 0 0 = y0 := rfl
  refine ⟨by simp [F1], ?_, ?_⟩
  · rw [hres]
    rfl
  · rw [hres]
    norm_num [y0]

/-- C3 on the code: `y0` with target distance 1, every entry of `fixedCoords` `NA`,
`iter = 1` and `tol = 0`. The tolerance test is not met in the one iteration, and the free
entry `(0, 0)` of the result is 0, while the update of the specification computed from `y0`
is `27/5`. -/
theorem free_entry_left_zero :
    FNA 0 0 = none ∧
    eps_le_tol (constrained_stress sqrtQ 2 y0 W0 D1)
      (constrained_stress sqrtQ 2
        (fixed_stress_major_xnew sqrtQ 2 y0 FNA W0 D1 (rowSums 2 W0)) W0 D1) 0 = false ∧
    fixed_stress_major sqrtQ 2 y0 FNA W0 D1 1 0 0 0 = 0 ∧
    guttman sqrtQ 2 2 y0 W0 D1 0 0 = 27 / 5 := by
  have hnot : eps_le_tol (constrained_stress sqrtQ 2 y0 W0 D1)
      (constrained_stress sqrtQ 2
        (fixed_stress_major_xnew sqrtQ 2 y0 FNA W0 D1 (rowSums 2 W0)) W0 D1) 0 = false := by
    rw [stress_y0_D1, stress_xnew_FNA]
    norm_num [W0, D1]
    exact eps_le_tol_81_1
  have hres : fixed_stress_major sqrtQ 2 y0 FNA W0 D1 1 0 =
      fixed_stress_major_xnew sqrtQ 2 y0 FNA W0 D1 (rowSums 2 W0) := by
    show fixed_stress_major_loop sqrtQ 2 FNA W0 D1 (rowSums 2 W0) 0 1 y0
      (constrained_stress sqrtQ 2 y0 W0 D1) = _
    unfold fixed_stress_major_loop
    simp only [hnot, Bool.false_eq_true, if_false]
    rfl
  refine ⟨rfl, hnot, ?_, ?_⟩
  · rw [hres, xnew_FNA]
  · have h00 : euclid sqrtQ 2 y0 0 0 = 0 := by
      rw [euclid_two]
      norm_num [sqrtQ_zero]
    unfold guttman
    simp [Finset.sum_filter, Finset.sum_range_succ, euclid2_y0, h00]
    norm_num [y0, W0, D1]

/-- C18. Stress is translation invariant: adding a vector `t` to every row of `x` leaves
`constrained_stress` and `constrained_stress3D` unchanged. -/
theorem stress_translation_invariant (sqrt : R → R) (n : Nat) (x W D : NumericMatrix R)
    (t : Nat → R) :
    constrained_stress sqrt n (translate x t) W D = constrained_stress sqrt n x W D ∧
    constrained_stress3D sqrt n (translate x t) W D = constrained_stress3D sqrt n x W D := by
  unfold constrained_stress constrained_stress3D translate
  simp only [add_sub_add_right_eq_sub, and_self]

/-- C19. 2D and 3D stress agree on planar configurations: when all `n` points of `x` share
their third coordinate and `x2` holds the first two columns of `x`, `constrained_stress3D` of
`x` equals `constrained_stress` of `x2`. -/
theorem stress3D_planar (sqrt : R → R) (n : Nat) (x x2 W D : NumericMatrix R)
    (hconst : ∀ i j, i < n → j < n → x i 2 = x j 2)
    (hx2 : ∀ i c, i < n → c < 2 → x2 i c = x i c) :
    constrained_stress3D sqrt n x W D = constrained_stress sqrt n x2 W D := by
  rw [constrained_stress3D_eq_spec, constrained_stress_eq_spec]
  unfold stressSpec
  refine Finset.sum_congr rfl (fun i hi => Finset.sum_congr rfl (fun j hj => ?_))
  have hin : i < n := Finset.mem_range.mp hi
  have hjn : j < n := Finset.mem_range.mp (Finset.mem_filter.mp hj).1
  rw [euclid_three, euclid_two, hconst i j hin hjn, hx2 i 0 hin (by decide),
    hx2 i 1 hin (by decide), hx2 j 0 hjn (by decide), hx2 j 1 hjn (by decide), sub_self,
    mul_zero, add_zero]

/-- Witness of C19: the two points of `y0` read as a configuration in three dimensions with
third coordinate 0. -/
theorem stress3D_planar_witness :
    constrained_stress3D sqrtQ 2 y0 W0 D0 = constrained_stress sqrtQ 2 y0 W0 D0 :=
  stress3D_planar sqrtQ 2 y0 y0 W0 D0
    (fun i j hi hj => by interval_cases i <;> interval_cases j <;> rfl)
    (fun _ _ _ _ => rfl)

/-- The loop applies at most `k` updates: it is left with some `m`-th iterate, `m <= k`. -/
theorem majorLoop_steps (step : NumericMatrix R → NumericMatrix R) (stress : NumericMatrix R → R)
    (tol : R) : ∀ (k : Nat) (x : NumericMatrix R),
      ∃ m, m ≤ k ∧ majorLoop step stress tol k x (stress x) = step^[m] x := by
  intro k
  induction k with
  | zero =>
    intro x
    exact ⟨0, le_refl 0, rfl⟩
  | succ k ih =>
    intro x
    unfold majorLoop
    cases h : eps_le_tol (stress x) (stress (step x)) tol
    · obtain ⟨m, hm, hres⟩ := ih (step x)
      refine ⟨m + 1, by omega, ?_⟩
      simp only [Bool.false_eq_true, if_false]
      rw [hres, Function.iterate_succ_apply]
    · exact ⟨0, Nat.zero_le _, by simp⟩

/-- C16. Exhausted result: when the tolerance test is met in none of the `iter` iterations,
each solver returns the `iter`-fold update of `y`; and whatever the tests give, the result of
a run is the `k`-fold update of `y` for some `k <= iter`. -/
theorem exhausted_result (sqrt : R → R) (n : Nat) (y y3 W D : NumericMatrix R)
    (dim dim3 : Nat) (F : NumericMatrix (Option R)) (iter : Int) (tol : R) :
    ((∀ l, l < iter.toNat →
        eps_le_tol (constrained_stress sqrt n (constrained_stress_major_iterate sqrt n y dim W D l) W D)
          (constrained_stress sqrt n (constrained_stress_major_iterate sqrt n y dim W D (l + 1)) W D)
          tol = false) →
      constrained_stress_major sqrt n y dim W D iter tol =
        constrained_stress_major_iterate sqrt n y dim W D iter.toNat) ∧
    ((∀ l, l < iter.toNat →
        eps_le_tol
          (constrained_stress3D sqrt n (constrained_stress_major3D_iterate sqrt n y3 dim3 W D l) W D)
          (constrained_stress3D sqrt n
            (constrained_stress_major3D_iterate sqrt n y3 dim3 W D (l + 1)) W D)
          tol = false) →
      constrained_stress_major3D sqrt n y3 dim3 W D iter tol =
        constrained_stress_major3D_iterate sqrt n y3 dim3 W D iter.toNat) ∧
    ((∀ l, l < iter.toNat →
        eps_le_tol (constrained_stress sqrt n (fixed_stress_major_iterate sqrt n y F W D l) W D)
          (constrained_stress sqrt n (fixed_stress_major_iterate sqrt n y F W D (l + 1)) W D)
          tol = false) →
      fixed_stress_major sqrt n y F W D iter tol =
        fixed_stress_major_iterate sqrt n y F W D iter.toNat) ∧
    (∃ k, k ≤ iter.toNat ∧ constrained_stress_major sqrt n y dim W D iter tol =
      constrained_stress_major_iterate sqrt n y dim W D k) ∧
    (∃ k, k ≤ iter.toNat ∧ constrained_stress_major3D sqrt n y3 dim3 W D iter tol =
      constrained_stress_major3D_iterate sqrt n y3 dim3 W D k) ∧
    (∃ k, k ≤ iter.toNat ∧ fixed_stress_major sqrt n y F W D iter tol =
      fixed_stress_major_iterate sqrt n y F W D k) := by
  refine ⟨?_, ?_, ?_, ?_, ?_, ?_⟩
  · intro hl
    unfold constrained_stress_major
    simp only [constrained_stress_major_loop_eq]
    exact majorLoop_exhaust _ (fun x => constrained_stress sqrt n x W D) tol iter.toNat y hl
  · intro hl
    unfold constrained_stress_major3D
    simp only [constrained_stress_major3D_loop_eq]
    exact majorLoop_exhaust _ (fun x => constrained_stress3D sqrt n x W D) tol iter.toNat y3 hl
  · intro hl
    unfold fixed_stress_major
    simp only [fixed_stress_major_loop_eq]
    exact majorLoop_exhaust _ (fun x => constrained_stress sqrt n x W D) tol iter.toNat y hl
  · unfold constrained_stress_major
    simp only [constrained_stress_major_loop_eq]
    exact majorLoop_steps _ (fun x => constrained_stress sqrt n x W D) tol iter.toNat y
  · unfold constrained_stress_major3D
    simp only [constrained_stress_major3D_loop_eq]
    exact majorLoop_steps _ (fun x => constrained_stress3D sqrt n x W D) tol iter.toNat y3
  · unfold fixed_stress_major
    simp only [fixed_stress_major_loop_eq]
    exact majorLoop_steps _ (fun x => constrained_stress sqrt n x W D) tol iter.toNat y

theorem eps_le_tol_25_9_neg : eps_le_tol (25 : ℚ) 9 (-1) = false := by
  unfold eps_le_tol
  norm_num

theorem eps_le_tol_25_25_neg : eps_le_tol (25 : ℚ) 25 (-1) = false := by
  unfold eps_le_tol
  norm_num

/-- Witness of C16: on `y0` with `iter = 1` and `tol = -1` the test is not met in the one
iteration of any solver, and each returns the one-fold update. -/
theorem exhausted_result_witness :
    constrained_stress_major sqrtQ 2 y0 2 W0 D0 1 (-1) =
      constrained_stress_major_iterate sqrtQ 2 y0 2 W0 D0 (Int.toNat 1) ∧
    constrained_stress_major3D sqrtQ 2 y0 3 W0 D0 1 (-1) =
      constrained_stress_major3D_iterate sqrtQ 2 y0 3 W0 D0 (Int.toNat 1) ∧
    fixed_stress_major sqrtQ 2 y0 FNA W0 D0 1 (-1) =
      fixed_stress_major_iterate sqrtQ 2 y0 FNA W0 D0 (Int.toNat 1) :=
  have h := exhausted_result sqrtQ 2 y0 y0 W0 D0 2 3 FNA 1 (-1)
  ⟨h.1 (fun l hl => by
      have hl0 : l = 0 := by omega
      subst hl0
      show eps_le_tol (constrained_stress sqrtQ 2 y0 W0 D0)
        (constrained_stress sqrtQ 2
          (constrained_stress_major_xnew sqrtQ 2 y0 y0 2 W0 D0 (rowSums 2 W0)) W0 D0) (-1) = false
      rw [stress_y0, stress_xnew_y0]
      exact eps_le_tol_25_9_neg),
    h.2.1 (fun l hl => by
      have hl0 : l = 0 := by omega
      subst hl0
      show eps_le_tol (constrained_stress3D sqrtQ 2 y0 W0 D0)
        (constrained_stress3D sqrtQ 2
          (constrained_stress_major3D_xnew sqrtQ 2 y0 y0 3 W0 D0 (rowSums 2 W0)) W0 D0) (-1)
          = false
      rw [stress3D_y0, stress3D_xnew_y0]
      exact eps_le_tol_25_25_neg),
    h.2.2.1 (fun l hl => by
      have hl0 : l = 0 := by omega
      subst hl0
      show eps_le_tol (constrained_stress sqrtQ 2 y0 W0 D0)
        (constrained_stress sqrtQ 2
          (fixed_stress_major_xnew sqrtQ 2 y0 FNA W0 D0 (rowSums 2 W0)) W0 D0) (-1) = false
      rw [stress_y0, stress_xnew_FNA]
      norm_num [W0, D0]
      exact eps_le_tol_25_25_neg)⟩

theorem eps_le_tol_increase (so sn tol : R) (htol : 0 ≤ tol) (hso : 0 < so) (hinc : so < sn) :
    eps_le_tol so sn tol = true := by
  unfold eps_le_tol
  rw [if_neg (ne_of_gt hso), decide_eq_true_iff]
  have h1 : (so - sn) / so < 0 := div_neg_of_neg_of_pos (by linarith) hso
  linarith

/-- A loop whose first test is met is left with the initial configuration. -/
theorem majorLoop_first_met (step : NumericMatrix R → NumericMatrix R)
    (stress : NumericMatrix R → R) (tol : R) (k : Nat) (x : NumericMatrix R)
    (hmet : eps_le_tol (stress x) (stress (step x)) tol = true) :
    majorLoop step stress tol k x (stress x) = x := by
  cases k with
  | zero => rfl
  | succ k =>
    unfold majorLoop
    simp only [hmet, if_true]

/-- C15. Stress increase stops the loop: with `tol >= 0`, for each solver on its own: when
`stress(y) > 0` and the first update of that solver has a stress greater than `stress(y)`, the
solver returns for every `iter >= 1` what it returns for `iter = 1`, which is `y`: no update
is accepted. -/
theorem stress_increase_stops (sqrt : R → R) (n : Nat) (y W D : NumericMatrix R)
    (dim : Nat) (F : NumericMatrix (Option R)) (iter : Int) (tol : R)
    (htol : 0 ≤ tol) (_hiter : 1 ≤ iter) :
    (0 < constrained_stress sqrt n y W D →
      constrained_stress sqrt n y W D <
        constrained_stress sqrt n
          (constrained_stress_major_xnew sqrt n y y dim W D (rowSums n W)) W D →
      constrained_stress_major sqrt n y dim W D iter tol =
          constrained_stress_major sqrt n y dim W D 1 tol ∧
        constrained_stress_major sqrt n y dim W D iter tol = y) ∧
    (0 < constrained_stress3D sqrt n y W D →
      constrained_stress3D sqrt n y W D <
        constrained_stress3D sqrt n
          (constrained_stress_major3D_xnew sqrt n y y dim W D (rowSums n W)) W D →
      constrained_stress_major3D sqrt n y dim W D iter tol =
          constrained_stress_major3D sqrt n y dim W D 1 tol ∧
        constrained_stress_major3D sqrt n y dim W D iter tol = y) ∧
    (0 < constrained_stress sqrt n y W D →
      constrained_stress sqrt n y W D <
        constrained_stress sqrt n (fixed_stress_major_xnew sqrt n y F W D (rowSums n W)) W D →
      fixed_stress_major sqrt n y F W D iter tol = fixed_stress_major sqrt n y F W D 1 tol ∧
        fixed_stress_major sqrt n y F W D iter tol = y) := by
  refine ⟨?_, ?_, ?_⟩
  · intro hpos hinc
    have e2 : ∀ it : Int, constrained_stress_major sqrt n y dim W D it tol = y := by
      intro it
      unfold constrained_stress_major
      simp only [constrained_stress_major_loop_eq]
      exact majorLoop_first_met _ (fun x => constrained_stress sqrt n x W D) tol it.toNat y
        (eps_le_tol_increase _ _ tol htol hpos hinc)
    exact ⟨by rw [e2 iter, e2 1], e2 iter⟩
  · intro hpos hinc
    have e3 : ∀ it : Int, constrained_stress_major3D sqrt n y dim W D it tol = y := by
      intro it
      unfold constrained_stress_major3D
      simp only [constrained_stress_major3D_loop_eq]
      exact majorLoop_first_met _ (fun x => constrained_stress3D sqrt n x W D) tol it.toNat y
        (eps_le_tol_increase _ _ tol htol hpos hinc)
    exact ⟨by rw [e3 iter, e3 1], e3 iter⟩
  · intro hpos hinc
    have eF : ∀ it : Int, fixed_stress_major sqrt n y F W D it tol = y := by
      intro it
      unfold fixed_stress_major
      simp only [fixed_stress_major_loop_eq]
      exact majorLoop_first_met _ (fun x => constrained_stress sqrt n x W D) tol it.toNat y
        (eps_le_tol_increase _ _ tol htol hpos hinc)
    exact ⟨by rw [eF iter, eF 1], eF iter⟩

theorem sqrtQ_49 : sqrtQ 49 = 7 := by
  have h : isqrt 49 = 7 := by decide
  simp [sqrtQ, h, isqrt_one]

theorem euclid2_yline : euclid sqrtQ 2 yline 0 1 = 10 := by
  rw [euclid_two]
  norm_num [yline, sqrtQ_100]

theorem euclid3_yline : euclid sqrtQ 3 yline 0 1 = 10 := by
  rw [euclid_three]
  norm_num [yline, sqrtQ_100]

theorem stress_yline : constrained_stress sqrtQ 2 yline W1 D12 = 4 := by
  rw [constrained_stress_two, euclid2_yline]
  norm_num [W1, D12]

theorem stress3D_yline : constrained_stress3D sqrtQ 2 yline W1 D12 = 4 := by
  rw [constrained_stress3D_two, euclid3_yline]
  norm_num [W1, D12]

/-- The update of `yline` under the all-ones weights and target distance 12, axis 2 fixed,
moves the points to first coordinates `-1` and 6. -/
theorem xnew_yline (i c : Nat) (hi : i < 2) (hc : c < 2) :
    constrained_stress_major_xnew sqrtQ 2 yline yline 2 W1 D12 (rowSums 2 W1) i c =
      if c = 0 then (if i = 0 then -1 else 6) else 0 := by
  rw [constrained_stress_major_xnew_eq]
  have h10 : rowDist sqrtQ 2 yline 1 0 = 10 := by
    simp [rowDist, forLoop, List.range', yline]
    norm_num [sqrtQ_100]
  have h01 : rowDist sqrtQ 2 yline 0 1 = 10 := by
    simp [rowDist, forLoop, List.range', yline]
    norm_num [sqrtQ_100]
  interval_cases i <;> interval_cases c <;>
    simp [updateBy, setColumn, contribution, rowSums, forLoop, List.range',
      Finset.sum_range_succ, h10, h01] <;>
    norm_num [yline, W1, D12]

theorem stress_xnew_yline :
    constrained_stress sqrtQ 2
      (constrained_stress_major_xnew sqrtQ 2 yline yline 2 W1 D12 (rowSums 2 W1)) W1 D12
      = 25 := by
  rw [constrained_stress_two, euclid_two]
  simp only [xnew_yline 0 0 (by decide) (by decide), xnew_yline 0 1 (by decide) (by decide),
    xnew_yline 1 0 (by decide) (by decide), xnew_yline 1 1 (by decide) (by decide)]
  norm_num [W1, D12, sqrtQ_49]

theorem xnew3D_yline (i c : Nat) (hi : i < 2) (hc : c < 3) :
    constrained_stress_major3D_xnew sqrtQ 2 yline yline 3 W1 D12 (rowSums 2 W1) i c =
      if c = 0 then (if i = 0 then -1 else 6) else 0 := by
  rw [constrained_stress_major3D_xnew_eq]
  have h10 : rowDist sqrtQ 3 yline 1 0 = 10 := by
    simp [rowDist, forLoop, List.range', yline]
    norm_num [sqrtQ_100]
  have h01 : rowDist sqrtQ 3 yline 0 1 = 10 := by
    simp [rowDist, forLoop, List.range', yline]
    norm_num [sqrtQ_100]
  interval_cases i <;> interval_cases c <;>
    simp [updateBy, setColumn, contribution, rowSums, forLoop, List.range',
      Finset.sum_range_succ, h10, h01] <;>
    norm_num [yline, W1, D12]

theorem stress3D_xnew_yline :
    constrained_stress3D sqrtQ 2
      (constrained_stress_major3D_xnew sqrtQ 2 yline yline 3 W1 D12 (rowSums 2 W1)) W1 D12
      = 25 := by
  rw [constrained_stress3D_two, euclid_three]
  simp only [xnew3D_yline 0 0 (by decide) (by decide), xnew3D_yline 0 1 (by decide) (by decide),
    xnew3D_yline 0 2 (by decide) (by decide), xnew3D_yline 1 0 (by decide) (by decide),
    xnew3D_yline 1 1 (by decide) (by decide), xnew3D_yline 1 2 (by decide) (by decide)]
  norm_num [W1, D12, sqrtQ_49]

theorem stress_xnew_FNA_any (x W D' : NumericMatrix ℚ) (wsum : Nat → ℚ)
    (W' D : NumericMatrix ℚ) :
    constrained_stress sqrtQ 2 (fixed_stress_major_xnew sqrtQ 2 x FNA W D' wsum) W' D =
      W' 0 1 * (D 0 1) ^ 2 := by
  rw [constrained_stress_two, euclid_two]
  simp only [xnew_FNA]
  norm_num [sqrtQ_zero]

/-- Witness of C15: `yline` under the all-ones weights and target distance 12; the first
update raises the stress from 4 to 25 (to 144 in `fixed_stress_major` with all entries
free), and each solver returns `yline`; the two-dimensional solvers with `dim = 2`, the
three-dimensional one with `dim = 3`. -/
theorem stress_increase_stops_witness :
    (constrained_stress_major sqrtQ 2 yline 2 W1 D12 5 0 =
        constrained_stress_major sqrtQ 2 yline 2 W1 D12 1 0 ∧
      constrained_stress_major sqrtQ 2 yline 2 W1 D12 5 0 = yline) ∧
    (constrained_stress_major3D sqrtQ 2 yline 3 W1 D12 5 0 =
        constrained_stress_major3D sqrtQ 2 yline 3 W1 D12 1 0 ∧
      constrained_stress_major3D sqrtQ 2 yline 3 W1 D12 5 0 = yline) ∧
    (fixed_stress_major sqrtQ 2 yline FNA W1 D12 5 0 =
        fixed_stress_major sqrtQ 2 yline FNA W1 D12 1 0 ∧
      fixed_stress_major sqrtQ 2 yline FNA W1 D12 5 0 = yline) :=
  ⟨(stress_increase_stops sqrtQ 2 yline W1 D12 2 FNA 5 0 (le_refl 0) (by decide)).1
      (by rw [stress_yline]; norm_num)
      (by rw [stress_yline, stress_xnew_yline]; norm_num),
    (stress_increase_stops sqrtQ 2 yline W1 D12 3 FNA 5 0 (le_refl 0) (by decide)).2.1
      (by rw [stress3D_yline]; norm_num)
      (by rw [stress3D_yline, stress3D_xnew_yline]; norm_num),
    (stress_increase_stops sqrtQ 2 yline W1 D12 2 FNA 5 0 (le_refl 0) (by decide)).2.2
      (by rw [stress_yline]; norm_num)
      (by rw [stress_yline, stress_xnew_FNA_any]; norm_num [W1, D12])⟩

theorem setColumn_congr {R : Type} (n : Nat) (m y r : NumericMatrix R) (c : Nat)
    (h : ∀ i, i < n → y i c = r i c) : setColumn n m y c = setColumn n m r c := by
  funext i c'
  unfold setColumn
  by_cases hc : i < n ∧ c' = c
  · rw [if_pos hc, if_pos hc, h i hc.1]
  · rw [if_neg hc, if_neg hc]

/-- The pass of `constrained_stress_major` reads `y` only in column `dim - 1`. -/
theorem constrained_stress_major_xnew_congr_y (sqrt : R → R) (n : Nat) (x y r : NumericMatrix R)
    (dim : Nat) (W D : NumericMatrix R) (wsum : Nat → R)
    (h : ∀ i, i < n → y i (dim - 1) = r i (dim - 1)) :
    constrained_stress_major_xnew sqrt n x y dim W D wsum =
      constrained_stress_major_xnew sqrt n x r dim W D wsum := by
  rw [constrained_stress_major_xnew_eq, constrained_stress_major_xnew_eq,
    setColumn_congr n _ y r (dim - 1) h]

/-- The pass of `constrained_stress_major3D` reads `y` only in column `dim - 1`. -/
theorem constrained_stress_major3D_xnew_congr_y (sqrt : R → R) (n : Nat)
    (x y r : NumericMatrix R) (dim : Nat) (W D : NumericMatrix R) (wsum : Nat → R)
    (h : ∀ i, i < n → y i (dim - 1) = r i (dim - 1)) :
    constrained_stress_major3D_xnew sqrt n x y dim W D wsum =
      constrained_stress_major3D_xnew sqrt n x r dim W D wsum := by
  rw [constrained_stress_major3D_xnew_eq, constrained_stress_major3D_xnew_eq,
    setColumn_congr n _ y r (dim - 1) h]

theorem constrained_stress_major_xnew_fixed_col (sqrt : R → R) (n : Nat) (x y : NumericMatrix R)
    (dim : Nat) (W D : NumericMatrix R) (wsum : Nat → R) (i : Nat) (hi : i < n) :
    constrained_stress_major_xnew sqrt n x y dim W D wsum i (dim - 1) = y i (dim - 1) := by
  rw [constrained_stress_major_xnew_eq]
  unfold updateBy setColumn
  have hne : dim - 1 ≠ 1 - (dim - 1) := by omega
  simp [hi, hne]

theorem constrained_stress_major3D_xnew_fixed_col (sqrt : R → R) (n : Nat)
    (x y : NumericMatrix R) (dim : Nat) (W D : NumericMatrix R) (wsum : Nat → R) (i : Nat)
    (hi : i < n) :
    constrained_stress_major3D_xnew sqrt n x y dim W D wsum i (dim - 1) = y i (dim - 1) := by
  rw [constrained_stress_major3D_xnew_eq]
  unfold updateBy setColumn
  simp [hi]

theorem constrained_stress_major_iterate_fixed_col (sqrt : R → R) (n : Nat) (y : NumericMatrix R)
    (dim : Nat) (W D : NumericMatrix R) (k i : Nat) (hi : i < n) :
    constrained_stress_major_iterate sqrt n y dim W D k i (dim - 1) = y i (dim - 1) := by
  unfold constrained_stress_major_iterate
  cases k with
  | zero => rfl
  | succ k =>
    rw [Function.iterate_succ_apply']
    exact constrained_stress_major_xnew_fixed_col sqrt n _ y dim W D _ i hi

theorem constrained_stress_major3D_iterate_fixed_col (sqrt : R → R) (n : Nat)
    (y : NumericMatrix R) (dim : Nat) (W D : NumericMatrix R) (k i : Nat) (hi : i < n) :
    constrained_stress_major3D_iterate sqrt n y dim W D k i (dim - 1) = y i (dim - 1) := by
  unfold constrained_stress_major3D_iterate
  cases k with
  | zero => rfl
  | succ k =>
    rw [Function.iterate_succ_apply']
    exact constrained_stress_major3D_xnew_fixed_col sqrt n _ y dim W D _ i hi

/-- C13. Idempotence at convergence: when a solve with `iter >= 1` ends because the tolerance
test is met (first in iteration `j < iter`), running the same solver on the returned
configuration with the same `W`, `D`, `tol` and constraint argument and `iter = 1` returns
that configuration unchanged. -/
theorem idempotent_at_convergence (sqrt : R → R) (n : Nat) (y y3 W D : NumericMatrix R)
    (dim dim3 : Nat) (F : NumericMatrix (Option R)) (iter : Int) (tol : R) (j : Nat)
    (hj : (j : Int) < iter) :
    ((∀ l, l < j →
        eps_le_tol (constrained_stress sqrt n (constrained_stress_major_iterate sqrt n y dim W D l) W D)
          (constrained_stress sqrt n (constrained_stress_major_iterate sqrt n y dim W D (l + 1)) W D)
          tol = false) →
      eps_le_tol (constrained_stress sqrt n (constrained_stress_major_iterate sqrt n y dim W D j) W D)
        (constrained_stress sqrt n (constrained_stress_major_iterate sqrt n y dim W D (j + 1)) W D)
        tol = true →
      constrained_stress_major sqrt n (constrained_stress_major sqrt n y dim W D iter tol)
          dim W D 1 tol =
        constrained_stress_major sqrt n y dim W D iter tol) ∧
    ((∀ l, l < j →
        eps_le_tol
          (constrained_stress3D sqrt n (constrained_stress_major3D_iterate sqrt n y3 dim3 W D l) W D)
          (constrained_stress3D sqrt n
            (constrained_stress_major3D_iterate sqrt n y3 dim3 W D (l + 1)) W D)
          tol = false) →
      eps_le_tol
        (constrained_stress3D sqrt n (constrained_stress_major3D_iterate sqrt n y3 dim3 W D j) W D)
        (constrained_stress3D sqrt n
          (constrained_stress_major3D_iterate sqrt n y3 dim3 W D (j + 1)) W D)
        tol = true →
      constrained_stress_major3D sqrt n (constrained_stress_major3D sqrt n y3 dim3 W D iter tol)
          dim3 W D 1 tol =
        constrained_stress_major3D sqrt n y3 dim3 W D iter tol) ∧
    ((∀ l, l < j →
        eps_le_tol (constrained_stress sqrt n (fixed_stress_major_iterate sqrt n y F W D l) W D)
          (constrained_stress sqrt n (fixed_stress_major_iterate sqrt n y F W D (l + 1)) W D)
          tol = false) →
      eps_le_tol (constrained_stress sqrt n (fixed_stress_major_iterate sqrt n y F W D j) W D)
        (constrained_stress sqrt n (fixed_stress_major_iterate sqrt n y F W D (j + 1)) W D)
        tol = true →
      fixed_stress_major sqrt n (fixed_stress_major sqrt n y F W D iter tol) F W D 1 tol =
        fixed_stress_major sqrt n y F W D iter tol) := by
  have hk : j < iter.toNat := by omega
  refine ⟨?_, ?_, ?_⟩
  · intro hl hmet
    have hres : constrained_stress_major sqrt n y dim W D iter tol =
        constrained_stress_major_iterate sqrt n y dim W D j := by
      unfold constrained_stress_major
      simp only [constrained_stress_major_loop_eq]
      exact majorLoop_break _ (fun x => constrained_stress sqrt n x W D) tol j iter.toNat y hk
        hl hmet
    rw [hres]
    have hstep : constrained_stress_major_xnew sqrt n
          (constrained_stress_major_iterate sqrt n y dim W D j)
          (constrained_stress_major_iterate sqrt n y dim W D j) dim W D (rowSums n W) =
        constrained_stress_major_iterate sqrt n y dim W D (j + 1) := by
      rw [constrained_stress_major_xnew_congr_y sqrt n _ _ y dim W D _
        (fun i hi => constrained_stress_major_iterate_fixed_col sqrt n y dim W D j i hi)]
      unfold constrained_stress_major_iterate
      rw [Function.iterate_succ_apply']
    unfold constrained_stress_major
    simp only [constrained_stress_major_loop_eq]
    refine majorLoop_first_met _ (fun x => constrained_stress sqrt n x W D) tol _ _ ?_
    show eps_le_tol _ (constrained_stress sqrt n (constrained_stress_major_xnew sqrt n _ _ dim
      W D (rowSums n W)) W D) tol = true
    rw [hstep]
    exact hmet
  · intro hl hmet
    have hres : constrained_stress_major3D sqrt n y3 dim3 W D iter tol =
        constrained_stress_major3D_iterate sqrt n y3 dim3 W D j := by
      unfold constrained_stress_major3D
      simp only [constrained_stress_major3D_loop_eq]
      exact majorLoop_break _ (fun x => constrained_stress3D sqrt n x W D) tol j iter.toNat y3 hk
        hl hmet
    rw [hres]
    have hstep : constrained_stress_major3D_xnew sqrt n
          (constrained_stress_major3D_iterate sqrt n y3 dim3 W D j)
          (constrained_stress_major3D_iterate sqrt n y3 dim3 W D j) dim3 W D (rowSums n W) =
        constrained_stress_major3D_iterate sqrt n y3 dim3 W D (j + 1) := by
      rw [constrained_stress_major3D_xnew_congr_y sqrt n _ _ y3 dim3 W D _
        (fun i hi => constrained_stress_major3D_iterate_fixed_col sqrt n y3 dim3 W D j i hi)]
      unfold constrained_stress_major3D_iterate
      rw [Function.iterate_succ_apply']
    unfold constrained_stress_major3D
    simp only [constrained_stress_major3D_loop_eq]
    refine majorLoop_first_met _ (fun x => constrained_stress3D sqrt n x W D) tol _ _ ?_
    show eps_le_tol _ (constrained_stress3D sqrt n (constrained_stress_major3D_xnew sqrt n _ _
      dim3 W D (rowSums n W)) W D) tol = true
    rw [hstep]
    exact hmet
  · intro hl hmet
    have hres : fixed_stress_major sqrt n y F W D iter tol =
        fixed_stress_major_iterate sqrt n y F W D j := by
      unfold fixed_stress_major
      simp only [fixed_stress_major_loop_eq]
      exact majorLoop_break _ (fun x => constrained_stress sqrt n x W D) tol j iter.toNat y hk
        hl hmet
    rw [hres]
    have hstep : fixed_stress_major_xnew sqrt n (fixed_stress_major_iterate sqrt n y F W D j)
          F W D (rowSums n W) =
        fixed_stress_major_iterate sqrt n y F W D (j + 1) := by
      unfold fixed_stress_major_iterate
      rw [Function.iterate_succ_apply']
    unfold fixed_stress_major
    simp only [fixed_stress_major_loop_eq]
    refine majorLoop_first_met _ (fun x => constrained_stress sqrt n x W D) tol _ _ ?_
    show eps_le_tol _ (constrained_stress sqrt n (fixed_stress_major_xnew sqrt n _ F
      W D (rowSums n W)) W D) tol = true
    rw [hstep]
    exact hmet

/-- Witness of C13: on `y0` with `iter = 3` and `tol = 1` each solve ends in its first
iteration, and one more iteration from its result returns that result. -/
theorem idempotent_at_convergence_witness :
    constrained_stress_major sqrtQ 2 (constrained_stress_major sqrtQ 2 y0 2 W0 D0 3 1)
        2 W0 D0 1 1 = constrained_stress_major sqrtQ 2 y0 2 W0 D0 3 1 ∧
    constrained_stress_major3D sqrtQ 2 (constrained_stress_major3D sqrtQ 2 y0 3 W0 D0 3 1)
        3 W0 D0 1 1 = constrained_stress_major3D sqrtQ 2 y0 3 W0 D0 3 1 ∧
    fixed_stress_major sqrtQ 2 (fixed_stress_major sqrtQ 2 y0 FNA W0 D0 3 1) FNA W0 D0 1 1 =
      fixed_stress_major sqrtQ 2 y0 FNA W0 D0 3 1 :=
  have h := idempotent_at_convergence sqrtQ 2 y0 y0 W0 D0 2 3 FNA 3 1 0 (by decide)
  ⟨h.1 (fun l hl => absurd hl (Nat.not_lt_zero l))
      (by
        show eps_le_tol (constrained_stress sqrtQ 2 y0 W0 D0)
          (constrained_stress sqrtQ 2
            (constrained_stress_major_xnew sqrtQ 2 y0 y0 2 W0 D0 (rowSums 2 W0)) W0 D0) 1 = true
        rw [stress_y0, stress_xnew_y0]
        exact eps_le_tol_25_9),
    h.2.1 (fun l hl => absurd hl (Nat.not_lt_zero l))
      (by
        show eps_le_tol (constrained_stress3D sqrtQ 2 y0 W0 D0)
          (constrained_stress3D sqrtQ 2
            (constrained_stress_major3D_xnew sqrtQ 2 y0 y0 3 W0 D0 (rowSums 2 W0)) W0 D0) 1 = true
        rw [stress3D_y0, stress3D_xnew_y0]
        exact eps_le_tol_25_25),
    h.2.2 (fun l hl => absurd hl (Nat.not_lt_zero l))
      (by
        show eps_le_tol (constrained_stress sqrtQ 2 y0 W0 D0)
          (constrained_stress sqrtQ 2
            (fixed_stress_major_xnew sqrtQ 2 y0 FNA W0 D0 (rowSums 2 W0)) W0 D0) 1 = true
        rw [stress_y0, stress_xnew_FNA]
        norm_num [W0, D0]
        exact eps_le_tol_25_25)⟩

/-- The contributions read `x` only in the first `d` columns of the first `n` rows. -/
theorem contribution_congr_x (sqrt : R → R) (d n : Nat) (x x' W D : NumericMatrix R)
    (hx : ∀ i c, i < n → c < d → x i c = x' i c) (i a j : Nat) (hi : i < n) (hj : j < n)
    (ha : a < d) :
    contribution sqrt d x W D i a j = contribution sqrt d x' W D i a j := by
  have hdist : rowDist sqrt d x i j = rowDist sqrt d x' i j := by
    rw [rowDist_eq_euclid, rowDist_eq_euclid]
    unfold euclid
    congr 1
    refine Finset.sum_congr rfl (fun c hc => ?_)
    rw [hx i c hi (Finset.mem_range.mp hc), hx j c hj (Finset.mem_range.mp hc)]
  unfold contribution
  rw [hdist, hx i a hi ha, hx j a hj ha]

theorem updateBy_congr_x (sqrt : R → R) (d n : Nat) (free : Nat → Nat → Bool)
    (init x x' W D : NumericMatrix R) (wsum : Nat → R)
    (hfree : ∀ i c, free i c = true → c < d)
    (hx : ∀ i c, i < n → c < d → x i c = x' i c) :
    updateBy sqrt d n free init x W D wsum = updateBy sqrt d n free init x' W D wsum := by
  funext i c
  unfold updateBy
  by_cases h : i < n ∧ free i c = true
  · rw [if_pos h, if_pos h]
    congr 2
    exact Finset.sum_congr rfl (fun j hj =>
      contribution_congr_x sqrt d n x x' W D hx i c j h.1 (Finset.mem_range.mp hj)
        (hfree i c h.2))
  · rw [if_neg h, if_neg h]

/-- In a configuration that reproduces `D` with all distances above `1e-5`, under weights
with zero diagonal, point `j` contributes `W(i,j) * y[i][a]`. -/
theorem contribution_perfect (sqrt : R → R) (d n : Nat) (y W D : NumericMatrix R)
    (hdiag : ∀ i, i < n → W i i = 0)
    (hperf : ∀ i j, i < n → j < n → i ≠ j →
      euclid sqrt d y i j = D i j ∧ 1 / 100000 < D i j)
    (i a j : Nat) (hi : i < n) (hj : j < n) :
    contribution sqrt d y W D i a j = W i j * y i a := by
  unfold contribution
  by_cases hij : i = j
  · subst hij
    simp [hdiag i hi]
  · obtain ⟨hd, hgt⟩ := hperf i j hi hj hij
    have hpos : D i j ≠ 0 := by
      have : (0 : R) < 1 / 100000 := by norm_num
      exact ne_of_gt (lt_trans this hgt)
    rw [rowDist_eq_euclid, hd, if_pos ⟨hij, hgt⟩, mul_div_assoc, mul_div_cancel₀ _ hpos]
    ring

theorem updateBy_perfect (sqrt : R → R) (d n : Nat) (free : Nat → Nat → Bool)
    (init y W D : NumericMatrix R)
    (hdiag : ∀ i, i < n → W i i = 0) (hrow : ∀ i, i < n → 0 < rowSums n W i)
    (hperf : ∀ i j, i < n → j < n → i ≠ j →
      euclid sqrt d y i j = D i j ∧ 1 / 100000 < D i j)
    (i a : Nat) (hi : i < n) (hfree : free i a = true) (hinit : init i a = 0) :
    updateBy sqrt d n free init y W D (rowSums n W) i a = y i a := by
  unfold updateBy
  rw [if_pos ⟨hi, hfree⟩, hinit, zero_add]
  have hsum : ∑ j in Finset.range n, contribution sqrt d y W D i a j =
      rowSums n W i * y i a := by
    rw [rowSums_eq_sum, Finset.sum_mul]
    exact Finset.sum_congr rfl (fun j hj =>
      contribution_perfect sqrt d n y W D hdiag hperf i a j hi (Finset.mem_range.mp hj))
  rw [hsum, mul_div_assoc, mul_comm, div_mul_cancel₀]
  exact ne_of_gt (hrow i hi)

/-- C17. A perfect configuration is a fixed point of the solve: when `W` has zero diagonal and
strictly positive row sums, for each solver on its own: if the Euclidean distance of rows `i`
and `j` of `y` (over 2 axes for `constrained_stress_major`, over 3 for
`constrained_stress_major3D`) equals `D(i,j)` and is above `1e-5` for all `i != j`, then the
update maps every free coordinate of `y` to itself, and the solver (`dim` in `1..2`, in `1..3`
in three dimensions) returns `y` entry for entry, for every `iter` and `tol`. -/
theorem perfect_configuration_fixed (sqrt : R → R) (n : Nat) (y W D : NumericMatrix R)
    (dim : Nat) (iter : Int) (tol : R)
    (hdiag : ∀ i, i < n → W i i = 0) (hrow : ∀ i, i < n → 0 < rowSums n W i) :
    (1 ≤ dim ∧ dim ≤ 2 →
      (∀ i j, i < n → j < n → i ≠ j →
        euclid sqrt 2 y i j = D i j ∧ 1 / 100000 < D i j) →
      (∀ i a, i < n → a < 2 → a ≠ dim - 1 →
        constrained_stress_major_xnew sqrt n y y dim W D (rowSums n W) i a = y i a) ∧
      (∀ i c, i < n → c < 2 →
        constrained_stress_major sqrt n y dim W D iter tol i c = y i c)) ∧
    (1 ≤ dim ∧ dim ≤ 3 →
      (∀ i j, i < n → j < n → i ≠ j →
        euclid sqrt 3 y i j = D i j ∧ 1 / 100000 < D i j) →
      (∀ i a, i < n → a < 3 → a ≠ dim - 1 →
        constrained_stress_major3D_xnew sqrt n y y dim W D (rowSums n W) i a = y i a) ∧
      (∀ i c, i < n → c < 3 →
        constrained_stress_major3D sqrt n y dim W D iter tol i c = y i c)) := by
  refine ⟨?_, ?_⟩
  · intro hdim hperf
    have hstep2 : ∀ i c, i < n → c < 2 →
        constrained_stress_major_xnew sqrt n y y dim W D (rowSums n W) i c = y i c := by
      intro i c hi hc
      by_cases hfix : c = dim - 1
      · rw [hfix]
        exact constrained_stress_major_xnew_fixed_col sqrt n y y dim W D _ i hi
      · rw [constrained_stress_major_xnew_eq]
        refine updateBy_perfect sqrt 2 n _ _ y W D hdiag hrow hperf i c hi ?_ ?_
        · have : c = 1 - (dim - 1) := by omega
          simp [this]
        · unfold setColumn
          simp [hfix]
    refine ⟨fun i a hi ha _ => hstep2 i a hi ha, ?_⟩
    unfold constrained_stress_major
    simp only [constrained_stress_major_loop_eq]
    refine majorLoop_inv _ (fun x => constrained_stress sqrt n x W D) tol
      (fun x => ∀ i c, i < n → c < 2 → x i c = y i c) ?_ iter.toNat y (fun _ _ _ _ => rfl)
    intro x hx _ i c hi hc
    show constrained_stress_major_xnew sqrt n x y dim W D (rowSums n W) i c = y i c
    rw [constrained_stress_major_xnew_eq,
      updateBy_congr_x sqrt 2 n _ _ x y W D _ (fun _ c h => by
        have : c = 1 - (dim - 1) := by simpa using h
        omega) hx,
      ← constrained_stress_major_xnew_eq]
    exact hstep2 i c hi hc
  · intro _ hperf3
    have hstep3 : ∀ i c, i < n → c < 3 →
        constrained_stress_major3D_xnew sqrt n y y dim W D (rowSums n W) i c = y i c := by
      intro i c hi hc
      by_cases hfix : c = dim - 1
      · rw [hfix]
        exact constrained_stress_major3D_xnew_fixed_col sqrt n y y dim W D _ i hi
      · rw [constrained_stress_major3D_xnew_eq]
        refine updateBy_perfect sqrt 3 n _ _ y W D hdiag hrow hperf3 i c hi ?_ ?_
        · simp [hc, hfix]
        · unfold setColumn
          simp [hfix]
    refine ⟨fun i a hi ha _ => hstep3 i a hi ha, ?_⟩
    unfold constrained_stress_major3D
    simp only [constrained_stress_major3D_loop_eq]
    refine majorLoop_inv _ (fun x => constrained_stress3D sqrt n x W D) tol
      (fun x => ∀ i c, i < n → c < 3 → x i c = y i c) ?_ iter.toNat y (fun _ _ _ _ => rfl)
    intro x hx _ i c hi hc
    show constrained_stress_major3D_xnew sqrt n x y dim W D (rowSums n W) i c = y i c
    rw [constrained_stress_major3D_xnew_eq,
      updateBy_congr_x sqrt 3 n _ _ x y W D _ (fun _ c h => by
        have : c < 3 ∧ c ≠ dim - 1 := by simpa using h
        exact this.1) hx,
      ← constrained_stress_major3D_xnew_eq]
    exact hstep3 i c hi hc

theorem euclid2_y0_symm : euclid sqrtQ 2 y0 1 0 = 10 := by
  rw [euclid_two]
  norm_num [y0, sqrtQ_100]

theorem euclid3_y0_symm : euclid sqrtQ 3 y0 1 0 = 10 := by
  rw [euclid_three]
  norm_num [y0, sqrtQ_100]

theorem rowSums_W0 (i : Nat) (hi : i < 2) : rowSums 2 W0 i = 1 := by
  interval_cases i <;> simp [rowSums, forLoop, List.range', W0]

/-- Witness of C17: the two points of `y0` at distance 10 with target distance 10 and unit
weights off the diagonal; axis 2 fixed in two dimensions, axis 3 fixed in three. -/
theorem perfect_configuration_fixed_witness :
    ((∀ i a, i < 2 → a < 2 → a ≠ 2 - 1 →
        constrained_stress_major_xnew sqrtQ 2 y0 y0 2 W0 D10 (rowSums 2 W0) i a = y0 i a) ∧
      (∀ i c, i < 2 → c < 2 → constrained_stress_major sqrtQ 2 y0 2 W0 D10 5 0 i c = y0 i c)) ∧
    ((∀ i a, i < 2 → a < 3 → a ≠ 3 - 1 →
        constrained_stress_major3D_xnew sqrtQ 2 y0 y0 3 W0 D10 (rowSums 2 W0) i a = y0 i a) ∧
      (∀ i c, i < 2 → c < 3 →
        constrained_stress_major3D sqrtQ 2 y0 3 W0 D10 5 0 i c = y0 i c)) :=
  ⟨(perfect_configuration_fixed sqrtQ 2 y0 W0 D10 2 5 0 (fun i _ => by simp [W0])
      (fun i hi => by rw [rowSums_W0 i hi]; norm_num)).1 (by decide)
      (fun i j hi hj hij => by
        interval_cases i <;> interval_cases j
        · exact absurd rfl hij
        · rw [euclid2_y0]; norm_num [D10]
        · rw [euclid2_y0_symm]; norm_num [D10]
        · exact absurd rfl hij),
    (perfect_configuration_fixed sqrtQ 2 y0 W0 D10 3 5 0 (fun i _ => by simp [W0])
      (fun i hi => by rw [rowSums_W0 i hi]; norm_num)).2 (by decide)
      (fun i j hi hj hij => by
        interval_cases i <;> interval_cases j
        · exact absurd rfl hij
        · rw [euclid3_y0]; norm_num [D10]
        · rw [euclid3_y0_symm]; norm_num [D10]
        · exact absurd rfl hij)⟩

/-- The pass of `constrained_stress_major` calls the division by `denom` only with a divisor
above `1e-5`. -/
theorem constrained_stress_major_xnew_div_congr (dv dv' : R → R → R)
    (hdv : ∀ a b, 1 / 100000 < b → dv a b = dv' a b) (sqrt : R → R) (n : Nat)
    (x y : NumericMatrix R) (dim : Nat) (W D : NumericMatrix R) (wsum : Nat → R) :
    constrained_stress_major_xnew_div dv sqrt n x y dim W D wsum =
      constrained_stress_major_xnew_div dv' sqrt n x y dim W D wsum := by
  unfold constrained_stress_major_xnew_div
  dsimp only
  congr! 12
  all_goals (rw [hdv]; assumption)

/-- The pass of `fixed_stress_major` calls the division by `denom` only with a divisor above
`1e-5`. -/
theorem fixed_stress_major_xnew_div_congr (dv dv' : R → R → R)
    (hdv : ∀ a b, 1 / 100000 < b → dv a b = dv' a b) (sqrt : R → R) (n : Nat)
    (x : NumericMatrix R) (F : NumericMatrix (Option R)) (W D : NumericMatrix R)
    (wsum : Nat → R) :
    fixed_stress_major_xnew_div dv sqrt n x F W D wsum =
      fixed_stress_major_xnew_div dv' sqrt n x F W D wsum := by
  unfold fixed_stress_major_xnew_div
  dsimp only
  congr! 12
  all_goals first
    | rfl
    | (simp only [hdv _ _ ‹_ > _›])
    | (split_ifs <;> first | rfl | simp only [hdv _ _ ‹_ > _›])

/-- The pass of `constrained_stress_major3D` calls the division by `denom` only with a
divisor above `1e-5`. -/
theorem constrained_stress_major3D_xnew_div_congr (dv dv' : R → R → R)
    (hdv : ∀ a b, 1 / 100000 < b → dv a b = dv' a b) (sqrt : R → R) (n : Nat)
    (x y : NumericMatrix R) (dim : Nat) (W D : NumericMatrix R) (wsum : Nat → R) :
    constrained_stress_major3D_xnew_div dv sqrt n x y dim W D wsum =
      constrained_stress_major3D_xnew_div dv' sqrt n x y dim W D wsum := by
  unfold constrained_stress_major3D_xnew_div
  dsimp only
  congr! 12
  all_goals first
    | rfl
    | (simp only [hdv _ _ ‹_ > _›])

/-- The closed form of a pass reads `W(i,j)` and `D(i,j)` only at pairs of distinct points
at distance above `1e-5`. -/
theorem updateBy_congr_pairs (sqrt : R → R) (d n : Nat) (free : Nat → Nat → Bool)
    (init x W D W' D' : NumericMatrix R) (wsum : Nat → R)
    (h : ∀ i j, i < n → j < n → i ≠ j → 1 / 100000 < euclid sqrt d x i j →
      W i j = W' i j ∧ D i j = D' i j) :
    updateBy sqrt d n free init x W D wsum = updateBy sqrt d n free init x W' D' wsum := by
  funext i c
  unfold updateBy
  by_cases hc : i < n ∧ free i c = true
  · rw [if_pos hc, if_pos hc]
    congr 2
    refine Finset.sum_congr rfl (fun j hj => ?_)
    unfold contribution
    by_cases hp : i ≠ j ∧ rowDist sqrt d x i j > 1 / 100000
    · have hgt : 1 / 100000 < euclid sqrt d x i j := by
        rw [← rowDist_eq_euclid]
        exact hp.2
      obtain ⟨hW, hD⟩ := h i j hc.1 (Finset.mem_range.mp hj) hp.1 hgt
      rw [if_pos hp, if_pos hp, hW, hD]
    · rw [if_neg hp, if_neg hp]
  · rw [if_neg hc, if_neg hc]

/-- C14. Degenerate pair skip: in the pass of each solver a pair `(i, j)` at distance
`<= 1e-5` in the previous iterate `x` adds nothing to the accumulators of point `i`: the
pass gives the same `xnew` for weights and target distances that differ only at such pairs
(the divisor `wsum` kept), so the update of point `i` does not depend on `D(i, j)` for such
`j`; and every division by a pairwise distance has a divisor above `1e-5`: the pass is
unchanged when the division is replaced by any function that agrees with it on divisors
above `1e-5`. -/
theorem degenerate_pair_skip (sqrt : R → R) (n : Nat) (x y y3 W D W' D' : NumericMatrix R)
    (dim dim3 : Nat) (F : NumericMatrix (Option R)) (wsum : Nat → R) (dv dv' : R → R → R)
    (hpairs : ∀ i j, i < n → j < n → i ≠ j → 1 / 100000 < euclid sqrt 2 x i j →
      W i j = W' i j ∧ D i j = D' i j)
    (hpairs3 : ∀ i j, i < n → j < n → i ≠ j → 1 / 100000 < euclid sqrt 3 x i j →
      W i j = W' i j ∧ D i j = D' i j)
    (hdv : ∀ a b, 1 / 100000 < b → dv a b = dv' a b) :
    constrained_stress_major_xnew sqrt n x y dim W D wsum =
      constrained_stress_major_xnew sqrt n x y dim W' D' wsum ∧
    fixed_stress_major_xnew sqrt n x F W D wsum =
      fixed_stress_major_xnew sqrt n x F W' D' wsum ∧
    constrained_stress_major3D_xnew sqrt n x y3 dim3 W D wsum =
      constrained_stress_major3D_xnew sqrt n x y3 dim3 W' D' wsum ∧
    (constrained_stress_major_xnew sqrt n x y dim W D wsum =
        constrained_stress_major_xnew_div (fun a b => a / b) sqrt n x y dim W D wsum ∧
      constrained_stress_major_xnew_div dv sqrt n x y dim W D wsum =
        constrained_stress_major_xnew_div dv' sqrt n x y dim W D wsum) ∧
    (fixed_stress_major_xnew sqrt n x F W D wsum =
        fixed_stress_major_xnew_div (fun a b => a / b) sqrt n x F W D wsum ∧
      fixed_stress_major_xnew_div dv sqrt n x F W D wsum =
        fixed_stress_major_xnew_div dv' sqrt n x F W D wsum) ∧
    (constrained_stress_major3D_xnew sqrt n x y3 dim3 W D wsum =
        constrained_stress_major3D_xnew_div (fun a b => a / b) sqrt n x y3 dim3 W D wsum ∧
      constrained_stress_major3D_xnew_div dv sqrt n x y3 dim3 W D wsum =
        constrained_stress_major3D_xnew_div dv' sqrt n x y3 dim3 W D wsum) := by
  refine ⟨?_, ?_, ?_, ⟨rfl, ?_⟩, ⟨rfl, ?_⟩, ⟨rfl, ?_⟩⟩
  · rw [constrained_stress_major_xnew_eq, constrained_stress_major_xnew_eq]
    exact updateBy_congr_pairs sqrt 2 n _ _ x W D W' D' wsum hpairs
  · rw [fixed_stress_major_xnew_eq, fixed_stress_major_xnew_eq]
    exact updateBy_congr_pairs sqrt 2 n _ _ x W D W' D' wsum hpairs
  · rw [constrained_stress_major3D_xnew_eq, constrained_stress_major3D_xnew_eq]
    exact updateBy_congr_pairs sqrt 3 n _ _ x W D W' D' wsum hpairs3
  · exact constrained_stress_major_xnew_div_congr dv dv' hdv sqrt n x y dim W D wsum
  · exact fixed_stress_major_xnew_div_congr dv dv' hdv sqrt n x F W D wsum
  · exact constrained_stress_major3D_xnew_div_congr dv dv' hdv sqrt n x y3 dim3 W D wsum

theorem euclid_zero_config (d i j : Nat) :
    euclid sqrtQ d (fun _ _ => (0 : ℚ)) i j = 0 := by
  unfold euclid
  simp [sqrtQ_zero]

/-- Witness of C14: two coincident points at the origin; the weights and target distances
differ at the pair, and the second division returns 0 on divisors up to `1e-5`. -/
theorem degenerate_pair_skip_witness :
    constrained_stress_major_xnew sqrtQ 2 (fun _ _ => 0) y0 2 W0 D0 (rowSums 2 W0) =
      constrained_stress_major_xnew sqrtQ 2 (fun _ _ => 0) y0 2 W1 D1 (rowSums 2 W0) ∧
    fixed_stress_major_xnew sqrtQ 2 (fun _ _ => 0) F1 W0 D0 (rowSums 2 W0) =
      fixed_stress_major_xnew sqrtQ 2 (fun _ _ => 0) F1 W1 D1 (rowSums 2 W0) ∧
    constrained_stress_major3D_xnew sqrtQ 2 (fun _ _ => 0) y0 3 W0 D0 (rowSums 2 W0) =
      constrained_stress_major3D_xnew sqrtQ 2 (fun _ _ => 0) y0 3 W1 D1 (rowSums 2 W0) ∧
    (constrained_stress_major_xnew sqrtQ 2 (fun _ _ => 0) y0 2 W0 D0 (rowSums 2 W0) =
        constrained_stress_major_xnew_div (fun a b => a / b) sqrtQ 2 (fun _ _ => 0) y0 2 W0 D0
          (rowSums 2 W0) ∧
      constrained_stress_major_xnew_div (fun a b => a / b) sqrtQ 2 (fun _ _ => 0) y0 2 W0 D0
          (rowSums 2 W0) =
        constrained_stress_major_xnew_div (fun a b => if 1 / 100000 < b then a / b else 0)
          sqrtQ 2 (fun _ _ => 0) y0 2 W0 D0 (rowSums 2 W0)) ∧
    (fixed_stress_major_xnew sqrtQ 2 (fun _ _ => 0) F1 W0 D0 (rowSums 2 W0) =
        fixed_stress_major_xnew_div (fun a b => a / b) sqrtQ 2 (fun _ _ => 0) F1 W0 D0
          (rowSums 2 W0) ∧
      fixed_stress_major_xnew_div (fun a b => a / b) sqrtQ 2 (fun _ _ => 0) F1 W0 D0
          (rowSums 2 W0) =
        fixed_stress_major_xnew_div (fun a b => if 1 / 100000 < b then a / b else 0)
          sqrtQ 2 (fun _ _ => 0) F1 W0 D0 (rowSums 2 W0)) ∧
    (constrained_stress_major3D_xnew sqrtQ 2 (fun _ _ => 0) y0 3 W0 D0 (rowSums 2 W0) =
        constrained_stress_major3D_xnew_div (fun a b => a / b) sqrtQ 2 (fun _ _ => 0) y0 3 W0 D0
          (rowSums 2 W0) ∧
      constrained_stress_major3D_xnew_div (fun a b => a / b) sqrtQ 2 (fun _ _ => 0) y0 3 W0 D0
          (rowSums 2 W0) =
        constrained_stress_major3D_xnew_div (fun a b => if 1 / 100000 < b then a / b else 0)
          sqrtQ 2 (fun _ _ => 0) y0 3 W0 D0 (rowSums 2 W0)) :=
  degenerate_pair_skip sqrtQ 2 (fun _ _ => 0) y0 y0 W0 D0 W1 D1 2 3 F1 (rowSums 2 W0)
    (fun a b => a / b) (fun a b => if 1 / 100000 < b then a / b else 0)
    (fun i j _ _ _ h => by
      rw [euclid_zero_config] at h
      norm_num at h)
    (fun i j _ _ _ h => by
      rw [euclid_zero_config] at h
      norm_num at h)
    (fun a b hb => (if_pos hb).symm)

theorem constrained_stress_one_point (sqrt : R → R) (x W D : NumericMatrix R) :
    constrained_stress sqrt 1 x W D = 0 :=
  forLoop_empty 0 (1 - 1) (le_refl 0) _ 0

theorem constrained_stress3D_one_point (sqrt : R → R) (x W D : NumericMatrix R) :
    constrained_stress3D sqrt 1 x W D = 0 :=
  forLoop_empty 0 (1 - 1) (le_refl 0) _ 0

/-- The test on two zero stresses is not met, whatever `tol`. -/
theorem eps_le_tol_zero_zero (tol : R) : eps_le_tol (0 : R) 0 tol = false := by
  unfold eps_le_tol
  simp

theorem contribution_self (sqrt : R → R) (d : Nat) (x W D : NumericMatrix R) (i a : Nat) :
    contribution sqrt d x W D i a i = 0 := by
  unfold contribution
  simp

/-- With one point a pass leaves 0 in every entry it updates that starts at 0. -/
theorem updateBy_one_point (sqrt : R → R) (d : Nat) (free : Nat → Nat → Bool)
    (init x W D : NumericMatrix R) (wsum : Nat → R) (a : Nat) (hfree : free 0 a = true)
    (hinit : init 0 a = 0) :
    updateBy sqrt d 1 free init x W D wsum 0 a = 0 := by
  unfold updateBy
  rw [if_pos ⟨Nat.zero_lt_one, hfree⟩, hinit, zero_add, Finset.sum_range_one,
    contribution_self, zero_div]

/-- With one point and `iter >= 1` the result of `constrained_stress_major` is the `xnew` of
a pass. -/
theorem constrained_stress_major_one_point (sqrt : R → R) (y W D : NumericMatrix R) (dim : Nat)
    (iter : Int) (tol : R) (hiter : 1 ≤ iter) :
    ∃ x, constrained_stress_major sqrt 1 y dim W D iter tol =
      constrained_stress_major_xnew sqrt 1 x y dim W D (rowSums 1 W) := by
  obtain ⟨k, hk⟩ : ∃ k, iter.toNat = k + 1 := ⟨iter.toNat - 1, by omega⟩
  refine ⟨(fun x => constrained_stress_major_xnew sqrt 1 x y dim W D (rowSums 1 W))^[k] y, ?_⟩
  unfold constrained_stress_major
  simp only [constrained_stress_major_loop_eq]
  rw [majorLoop_exhaust _ (fun x => constrained_stress sqrt 1 x W D) tol iter.toNat y
    (fun l _ => by
      simp only [constrained_stress_one_point]
      exact eps_le_tol_zero_zero tol), hk, Function.iterate_succ_apply']

/-- With one point and `iter >= 1` the result of `constrained_stress_major3D` is the `xnew` of
a pass. -/
theorem constrained_stress_major3D_one_point (sqrt : R → R) (y W D : NumericMatrix R)
    (dim : Nat) (iter : Int) (tol : R) (hiter : 1 ≤ iter) :
    ∃ x, constrained_stress_major3D sqrt 1 y dim W D iter tol =
      constrained_stress_major3D_xnew sqrt 1 x y dim W D (rowSums 1 W) := by
  obtain ⟨k, hk⟩ : ∃ k, iter.toNat = k + 1 := ⟨iter.toNat - 1, by omega⟩
  refine ⟨(fun x => constrained_stress_major3D_xnew sqrt 1 x y dim W D (rowSums 1 W))^[k] y, ?_⟩
  unfold constrained_stress_major3D
  simp only [constrained_stress_major3D_loop_eq]
  rw [majorLoop_exhaust _ (fun x => constrained_stress3D sqrt 1 x W D) tol iter.toNat y
    (fun l _ => by
      simp only [constrained_stress3D_one_point]
      exact eps_le_tol_zero_zero tol), hk, Function.iterate_succ_apply']

theorem constrained_stress_major_one_point_free (sqrt : R → R) (y W D : NumericMatrix R)
    (dim : Nat) (iter : Int) (tol : R) (hiter : 1 ≤ iter) (a : Nat)
    (ha : a = 1 - (dim - 1)) :
    constrained_stress_major sqrt 1 y dim W D iter tol 0 a = 0 := by
  obtain ⟨x, hx⟩ := constrained_stress_major_one_point sqrt y W D dim iter tol hiter
  rw [hx, constrained_stress_major_xnew_eq]
  refine updateBy_one_point sqrt 2 _ _ x W D _ a ?_ ?_
  · simp [ha]
  · unfold setColumn
    have : a ≠ dim - 1 := by omega
    simp [this]

theorem constrained_stress_major3D_one_point_free (sqrt : R → R) (y W D : NumericMatrix R)
    (dim : Nat) (iter : Int) (tol : R) (hiter : 1 ≤ iter) (a : Nat)
    (ha : a < 3 ∧ a ≠ dim - 1) :
    constrained_stress_major3D sqrt 1 y dim W D iter tol 0 a = 0 := by
  obtain ⟨x, hx⟩ := constrained_stress_major3D_one_point sqrt y W D dim iter tol hiter
  rw [hx, constrained_stress_major3D_xnew_eq]
  refine updateBy_one_point sqrt 3 _ _ x W D _ a ?_ ?_
  · simp [ha.1, ha.2]
  · unfold setColumn
    simp [ha.2]

/-- C11, as the code has it. For a single point (`n = 1`), a valid axis index, `iter >= 1`
and `W(0,0)` other than 0: the stress is 0 before and after every pass, the test on `0 / 0`
is never met, every pass is accepted, and the result keeps the fixed-axis coordinate of `y`
and has 0 in every free coordinate. The point is returned unchanged only when its free
coordinates are 0. -/
theorem single_point_solve (sqrt : R → R) (y y3 W D : NumericMatrix R) (dim dim3 : Nat)
    (iter : Int) (tol : R) (hiter : 1 ≤ iter)
    (hdim : 1 ≤ dim ∧ dim ≤ 2) (_hdim3 : 1 ≤ dim3 ∧ dim3 ≤ 3) (_hW : W 0 0 ≠ 0) :
    constrained_stress_major sqrt 1 y dim W D iter tol 0 (dim - 1) = y 0 (dim - 1) ∧
    (∀ a, a < 2 → a ≠ dim - 1 → constrained_stress_major sqrt 1 y dim W D iter tol 0 a = 0) ∧
    constrained_stress_major3D sqrt 1 y3 dim3 W D iter tol 0 (dim3 - 1) = y3 0 (dim3 - 1) ∧
    (∀ a, a < 3 → a ≠ dim3 - 1 →
      constrained_stress_major3D sqrt 1 y3 dim3 W D iter tol 0 a = 0) := by
  refine ⟨?_, ?_, ?_, ?_⟩
  · obtain ⟨x, hx⟩ := constrained_stress_major_one_point sqrt y W D dim iter tol hiter
    rw [hx]
    exact constrained_stress_major_xnew_fixed_col sqrt 1 x y dim W D _ 0 Nat.zero_lt_one
  · intro a ha hne
    exact constrained_stress_major_one_point_free sqrt y W D dim iter tol hiter a (by omega)
  · obtain ⟨x, hx⟩ := constrained_stress_major3D_one_point sqrt y3 W D dim3 iter tol hiter
    rw [hx]
    exact constrained_stress_major3D_xnew_fixed_col sqrt 1 x y3 dim3 W D _ 0 Nat.zero_lt_one
  · intro a ha hne
    exact constrained_stress_major3D_one_point_free sqrt y3 W D dim3 iter tol hiter a ⟨ha, hne⟩

/-- Witness of C11 as the code has it: the point `(5, 7)`, weight 1, three iterations. -/
theorem single_point_solve_witness :
    constrained_stress_major sqrtQ 1 y57 2 W1 D0 3 0 0 (2 - 1) = y57 0 (2 - 1) ∧
    (∀ a, a < 2 → a ≠ 2 - 1 → constrained_stress_major sqrtQ 1 y57 2 W1 D0 3 0 0 a = 0) ∧
    constrained_stress_major3D sqrtQ 1 y57 3 W1 D0 3 0 0 (3 - 1) = y57 0 (3 - 1) ∧
    (∀ a, a < 3 → a ≠ 3 - 1 → constrained_stress_major3D sqrtQ 1 y57 3 W1 D0 3 0 0 a = 0) :=
  single_point_solve sqrtQ y57 y57 W1 D0 2 3 3 0 (by decide) (by decide) (by decide)
    (by norm_num [W1])

/-- C11 fails as stated: for the single point `(5, 7)` with axis 2 fixed, `W = [[1]]`,
`iter = 1` and `tol = 0`, `constrained_stress_major` returns first coordinate 0, not 5; and
`constrained_stress_major3D` with axis 3 fixed does the same. -/
theorem single_point_counterexample :
    constrained_stress_major sqrtQ 1 y57 2 W1 D0 1 0 0 0 = 0 ∧ y57 0 0 = 5 ∧
    constrained_stress_major sqrtQ 1 y57 2 W1 D0 1 0 ≠ y57 ∧
    constrained_stress_major3D sqrtQ 1 y57 3 W1 D0 1 0 0 0 = 0 ∧
    constrained_stress_major3D sqrtQ 1 y57 3 W1 D0 1 0 ≠ y57 := by
  have h2 : constrained_stress_major sqrtQ 1 y57 2 W1 D0 1 0 0 0 = 0 :=
    constrained_stress_major_one_point_free sqrtQ y57 W1 D0 2 1 0 (by decide) 0 (by decide)
  have h3 : constrained_stress_major3D sqrtQ 1 y57 3 W1 D0 1 0 0 0 = 0 :=
    constrained_stress_major3D_one_point_free sqrtQ y57 W1 D0 3 1 0 (by decide) 0 (by decide)
  have hy : y57 0 0 = 5 := rfl
  refine ⟨h2, hy, ?_, h3, ?_⟩
  · intro h
    rw [h, hy] at h2
    norm_num at h2
  · intro h
    rw [h, hy] at h3
    norm_num at h3

theorem stressSpec_congr_W (sqrt : R → R) (d n : Nat) (x W W' D : NumericMatrix R)
    (hoff : ∀ i j, i < n → j < n → i ≠ j → W i j = W' i j) :
    stressSpec sqrt d n x W D = stressSpec sqrt d n x W' D := by
  unfold stressSpec
  refine Finset.sum_congr rfl (fun i hi => Finset.sum_congr rfl (fun j hj => ?_))
  have hj2 := Finset.mem_filter.mp hj
  rw [hoff i j (Finset.mem_range.mp hi) (Finset.mem_range.mp hj2.1) (Nat.ne_of_lt hj2.2)]

/-- C12, as the code has it. The diagonal of `W` is read only through `wsum = rowSums(W)`:
for `W` and `W'` that agree on all off-diagonal entries the stress of every configuration is
the same, every pass computed with the same vector `wsum` is the same, and the `k` loop of
each solver run with `W'` and the row sums of `W` returns what the solver returns on `W`. -/
theorem diagonal_only_in_row_sums (sqrt : R → R) (n : Nat) (y y3 W W' D : NumericMatrix R)
    (dim dim3 : Nat) (F : NumericMatrix (Option R)) (iter : Int) (tol : R)
    (hoff : ∀ i j, i < n → j < n → i ≠ j → W i j = W' i j) :
    (∀ x, constrained_stress sqrt n x W D = constrained_stress sqrt n x W' D) ∧
    (∀ x, constrained_stress3D sqrt n x W D = constrained_stress3D sqrt n x W' D) ∧
    (∀ x wsum, constrained_stress_major_xnew sqrt n x y dim W D wsum =
      constrained_stress_major_xnew sqrt n x y dim W' D wsum) ∧
    (∀ x wsum, fixed_stress_major_xnew sqrt n x F W D wsum =
      fixed_stress_major_xnew sqrt n x F W' D wsum) ∧
    (∀ x wsum, constrained_stress_major3D_xnew sqrt n x y3 dim3 W D wsum =
      constrained_stress_major3D_xnew sqrt n x y3 dim3 W' D wsum) ∧
    constrained_stress_major sqrt n y dim W D iter tol =
      constrained_stress_major_loop sqrt n y dim W' D (rowSums n W) tol iter.toNat y
        (constrained_stress sqrt n y W' D) ∧
    fixed_stress_major sqrt n y F W D iter tol =
      fixed_stress_major_loop sqrt n F W' D (rowSums n W) tol iter.toNat y
        (constrained_stress sqrt n y W' D) ∧
    constrained_stress_major3D sqrt n y3 dim3 W D iter tol =
      constrained_stress_major3D_loop sqrt n y3 dim3 W' D (rowSums n W) tol iter.toNat y3
        (constrained_stress3D sqrt n y3 W' D) := by
  have hs2 : ∀ x, constrained_stress sqrt n x W D = constrained_stress sqrt n x W' D := by
    intro x
    rw [constrained_stress_eq_spec, constrained_stress_eq_spec]
    exact stressSpec_congr_W sqrt 2 n x W W' D hoff
  have hs3 : ∀ x, constrained_stress3D sqrt n x W D = constrained_stress3D sqrt n x W' D := by
    intro x
    rw [constrained_stress3D_eq_spec, constrained_stress3D_eq_spec]
    exact stressSpec_congr_W sqrt 3 n x W W' D hoff
  have hp2 : ∀ x wsum, constrained_stress_major_xnew sqrt n x y dim W D wsum =
      constrained_stress_major_xnew sqrt n x y dim W' D wsum := by
    intro x wsum
    rw [constrained_stress_major_xnew_eq, constrained_stress_major_xnew_eq]
    exact updateBy_congr_pairs sqrt 2 n _ _ x W D W' D wsum
      (fun i j hi hj hij _ => ⟨hoff i j hi hj hij, rfl⟩)
  have hpF : ∀ x wsum, fixed_stress_major_xnew sqrt n x F W D wsum =
      fixed_stress_major_xnew sqrt n x F W' D wsum := by
    intro x wsum
    rw [fixed_stress_major_xnew_eq, fixed_stress_major_xnew_eq]
    exact updateBy_congr_pairs sqrt 2 n _ _ x W D W' D wsum
      (fun i j hi hj hij _ => ⟨hoff i j hi hj hij, rfl⟩)
  have hp3 : ∀ x wsum, constrained_stress_major3D_xnew sqrt n x y3 dim3 W D wsum =
      constrained_stress_major3D_xnew sqrt n x y3 dim3 W' D wsum := by
    intro x wsum
    rw [constrained_stress_major3D_xnew_eq, constrained_stress_major3D_xnew_eq]
    exact updateBy_congr_pairs sqrt 3 n _ _ x W D W' D wsum
      (fun i j hi hj hij _ => ⟨hoff i j hi hj hij, rfl⟩)
  refine ⟨hs2, hs3, hp2, hpF, hp3, ?_, ?_, ?_⟩
  · unfold constrained_stress_major
    simp only [constrained_stress_major_loop_eq, hs2, hp2]
  · unfold fixed_stress_major
    simp only [fixed_stress_major_loop_eq, hs2, hpF]
  · unfold constrained_stress_major3D
    simp only [constrained_stress_major3D_loop_eq, hs3, hp3]

/-- Witness of C12 as the code has it: `W0` and `W1` differ on the diagonal only. -/
theorem diagonal_only_in_row_sums_witness :
    constrained_stress_major sqrtQ 2 y0 2 W0 D0 5 0 =
      constrained_stress_major_loop sqrtQ 2 y0 2 W1 D0 (rowSums 2 W0) 0 (Int.toNat 5) y0
        (constrained_stress sqrtQ 2 y0 W1 D0) ∧
    fixed_stress_major sqrtQ 2 y0 F1 W0 D0 5 0 =
      fixed_stress_major_loop sqrtQ 2 F1 W1 D0 (rowSums 2 W0) 0 (Int.toNat 5) y0
        (constrained_stress sqrtQ 2 y0 W1 D0) ∧
    constrained_stress_major3D sqrtQ 2 y0 3 W0 D0 5 0 =
      constrained_stress_major3D_loop sqrtQ 2 y0 3 W1 D0 (rowSums 2 W0) 0 (Int.toNat 5) y0
        (constrained_stress3D sqrtQ 2 y0 W1 D0) :=
  (diagonal_only_in_row_sums sqrtQ 2 y0 y0 W0 W1 D0 2 3 F1 5 0
    (fun i j _ _ hij => by simp [W0, W1, hij])).2.2.2.2.2

theorem stress_y0_W1 : constrained_stress sqrtQ 2 y0 W1 D0 = 25 := by
  rw [constrained_stress_two, euclid2_y0]
  norm_num [W1, D0]

/-- The update of `y0` under the all-ones weights, axis 2 fixed, moves both points to first
coordinate `3/2`. -/
theorem xnew_y0_W1 (i c : Nat) (hi : i < 2) (hc : c < 2) :
    constrained_stress_major_xnew sqrtQ 2 y0 y0 2 W1 D0 (rowSums 2 W1) i c =
      if c = 0 then 3 / 2 else y0 i c := by
  rw [constrained_stress_major_xnew_eq]
  have h10 : rowDist sqrtQ 2 y0 1 0 = 10 := by
    simp [rowDist, forLoop, List.range', y0]
    norm_num [sqrtQ_100]
  have h01 : rowDist sqrtQ 2 y0 0 1 = 10 := by
    simp [rowDist, forLoop, List.range', y0]
    norm_num [sqrtQ_100]
  interval_cases i <;> interval_cases c <;>
    simp [updateBy, setColumn, contribution, rowSums, forLoop, List.range',
      Finset.sum_range_succ, h10, h01] <;>
    norm_num [y0, W1, D0]

theorem stress_xnew_y0_W1 :
    constrained_stress sqrtQ 2
      (constrained_stress_major_xnew sqrtQ 2 y0 y0 2 W1 D0 (rowSums 2 W1)) W1 D0 = 9 := by
  rw [constrained_stress_two, euclid_two]
  simp only [xnew_y0_W1 0 0 (by decide) (by decide), xnew_y0_W1 0 1 (by decide) (by decide),
    xnew_y0_W1 1 0 (by decide) (by decide), xnew_y0_W1 1 1 (by decide) (by decide)]
  norm_num [y0, W1, D0, sqrtQ_64]

theorem eps_le_tol_25_9_zero : eps_le_tol (25 : ℚ) 9 0 = false := by
  unfold eps_le_tol
  norm_num

/-- C12 fails as stated: `W0` and `W1` agree off the diagonal, and on `y0` with axis 2 fixed,
`iter = 1` and `tol = 0` the result of `constrained_stress_major` has first coordinate 3 in
point 0 under `W0` and `3/2` under `W1`. -/
theorem diagonal_unused_counterexample :
    (∀ i j, i ≠ j → W0 i j = W1 i j) ∧
    constrained_stress_major sqrtQ 2 y0 2 W0 D0 1 0 0 0 = 3 ∧
    constrained_stress_major sqrtQ 2 y0 2 W1 D0 1 0 0 0 = 3 / 2 ∧
    constrained_stress_major sqrtQ 2 y0 2 W0 D0 1 0 ≠
      constrained_stress_major sqrtQ 2 y0 2 W1 D0 1 0 := by
  have h0 : constrained_stress_major sqrtQ 2 y0 2 W0 D0 1 0 =
      constrained_stress_major_xnew sqrtQ 2 y0 y0 2 W0 D0 (rowSums 2 W0) := by
    show constrained_stress_major_loop sqrtQ 2 y0 2 W0 D0 (rowSums 2 W0) 0 1 y0
      (constrained_stress sqrtQ 2 y0 W0 D0) = _
    unfold constrained_stress_major_loop
    simp only [stress_y0, stress_xnew_y0, eps_le_tol_25_9_zero, Bool.false_eq_true, if_false]
    rfl
  have h1 : constrained_stress_major sqrtQ 2 y0 2 W1 D0 1 0 =
      constrained_stress_major_xnew sqrtQ 2 y0 y0 2 W1 D0 (rowSums 2 W1) := by
    show constrained_stress_major_loop sqrtQ 2 y0 2 W1 D0 (rowSums 2 W1) 0 1 y0
      (constrained_stress sqrtQ 2 y0 W1 D0) = _
    unfold constrained_stress_major_loop
    simp only [stress_y0_W1, stress_xnew_y0_W1, eps_le_tol_25_9_zero, Bool.false_eq_true,
      if_false]
    rfl
  have e0 : constrained_stress_major sqrtQ 2 y0 2 W0 D0 1 0 0 0 = 3 := by
    rw [h0, xnew_y0 0 0 (by decide) (by decide)]
    rfl
  have e1 : constrained_stress_major sqrtQ 2 y0 2 W1 D0 1 0 0 0 = 3 / 2 := by
    rw [h1, xnew_y0_W1 0 0 (by decide) (by decide)]
    rfl
  refine ⟨fun i j hij => by simp [W0, W1, hij], e0, e1, ?_⟩
  intro h
  rw [h, e1] at e0
  norm_num at e0

end Claims

end Graphlayouts
